import Mathlib

/-!
# Counting semaphores and the bounded-buffer driver

A verification development for `semaphore.h` (the classes `semaphore` and
`semaphore_lockfree`) and `semaphore.cpp` (the producer/consumer driver).

Modelling conventions.

* An `int` is an `Int`; arithmetic on `atomic<int>` wraps (two's complement),
  see `wrapInt`.  Signed overflow of the plain `volatile int` of the blocking
  semaphore is undefined in C++; the model stores the two's-complement wrap
  there too, which is what the compiled code stores.
* `std::atomic` operations use the default sequentially consistent ordering,
  so a run of the program is an interleaving of atomic steps.  One step is one
  access to shared memory together with the thread-local code that follows it.
* A call is split at its shared accesses: a thread-local control point (`LfPc`,
  `BlkPc`) records where the thread stands inside the call.
* `this_thread::yield`, `sleep_for` and `cout` do not touch the shared state
  and are not steps.
-/

namespace Sem

set_option linter.unusedTactic false
set_option linter.unreachableTactic false
set_option linter.unnecessarySeqFocus false

/-! ## Machine integers -/

/-- Largest value of an `int`. -/
def INT_MAX : Int := 2147483647

/-- Smallest value of an `int`. -/
def INT_MIN : Int := -2147483648

/-- The `int` that two's-complement arithmetic stores for the mathematical value `x`. -/
def wrapInt (x : Int) : Int := (x + 2147483648) % 4294967296 - 2147483648

/-- Outcome of one step of a call: the call goes on at a control point, or returns. -/
inductive Ctl (P R : Type) where
  | cont (pc : P)
  | ret (r : R)
  deriving DecidableEq, Repr

/-- Runs a call with no other thread taking steps: at most `fuel` steps of `step`.
`none` when a step is not enabled or the fuel is used up before the call returns. -/
def runAlone {S P R : Type} (step : S → P → Option (S × Ctl P R)) : Nat → S → P → Option (S × R)
  | 0, _, _ => none
  | fuel + 1, s, pc =>
    match step s pc with
    | none => none
    | some (s1, Ctl.ret r) => some (s1, r)
    | some (s1, Ctl.cont pc1) => runAlone step fuel s1 pc1

/-! ## `semaphore_lockfree` -/

/-- Control points inside `semaphore_lockfree::wait` and `::trywait`. -/
inductive LfPc where
  /-- About to execute `int old_val = m_val;`. -/
  | load
  /-- Holds `old_val`; about to run the test `old_val <= 0` and the compare-and-swap. -/
  | test (old_val : Int)
  deriving DecidableEq, Repr

/-- The call `m_val.compare_exchange_strong(expected, desired)`: the success flag and the
value of `m_val` afterwards.  (The value written back to `expected` on failure is never
used by the callers.) -/
def compare_exchange_strong (m_val expected desired : Int) : Bool × Int :=
  if m_val = expected then (true, desired) else (false, m_val)

namespace semaphore_lockfree

/-- Constructor `semaphore_lockfree(int val) {m_val = val;}`. -/
def mk (val : Int) : Int := val

/-- The rest of one iteration of the loop of `wait` after `int old_val = m_val;`, run on
the count `m_val` current at that moment: `(true, _)` is the `break`, `(false, _)` the
next iteration. -/
def wait_iter (old_val m_val : Int) : Bool × Int :=
  if old_val ≤ 0 then (false, m_val)
  else compare_exchange_strong m_val old_val (old_val - 1)

/-- One step of `wait`. -/
def wait_step (m_val : Int) : LfPc → Int × Ctl LfPc Unit
  | .load => (m_val, .cont (.test m_val))
  | .test old_val =>
    match wait_iter old_val m_val with
    | (true, m) => (m, .ret ())
    | (false, m) => (m, .cont .load)

/-- The body of `post`: `m_val++` on an `atomic<int>`. -/
def post (m_val : Int) : Int := wrapInt (m_val + 1)

/-- The rest of `trywait` after `int old_val = m_val;`, run on the count `m_val` current
at the compare-and-swap: the returned flag and the count afterwards. -/
def trywait_from (old_val m_val : Int) : Bool × Int :=
  if old_val ≤ 0 then (false, m_val)
  else
    match compare_exchange_strong m_val old_val (old_val - 1) with
    | (true, m) => (true, m)
    | (false, m) => (false, m)

/-- One step of `trywait`. -/
def trywait_step (m_val : Int) : LfPc → Int × Ctl LfPc Bool
  | .load => (m_val, .cont (.test m_val))
  | .test old_val => ((trywait_from old_val m_val).2, .ret (trywait_from old_val m_val).1)

/-- A call of `wait` with no other thread running, at most `fuel` steps. -/
def wait (fuel : Nat) (m_val : Int) : Option (Int × Unit) :=
  runAlone (fun s pc => some (wait_step s pc)) fuel m_val .load

/-- A call of `trywait` with no other thread running: the count afterwards and the flag. -/
def trywait (m_val : Int) : Option (Int × Bool) :=
  runAlone (fun s pc => some (trywait_step s pc)) 2 m_val .load

end semaphore_lockfree

/-! ## `semaphore` (mutex and condition variable) -/

/-- The shared state of a `semaphore`: the count and whether `m_mtx` is owned.
The condition variable has no state of its own here: C++ allows a thread blocked
in `m_cv.wait` to wake spuriously, so a sleeping thread may always try to take
the mutex again, and `notify_all` changes nothing more. -/
structure semaphore where
  ofFields ::
  m_val : Int
  m_mtx : Bool
  deriving DecidableEq, Repr

/-- Control points inside the member functions of `semaphore`. -/
inductive BlkPc where
  /-- About to construct `unique_lock<mutex> lck(m_mtx)`. -/
  | lock
  /-- Owns `m_mtx`; about to run the body up to the release of `lck`. -/
  | body
  /-- Blocked inside `m_cv.wait`, the mutex released. -/
  | asleep
  deriving DecidableEq, Repr

namespace semaphore

/-- Constructor `semaphore(int m_val) : m_val(m_val) {}`; the mutex starts free. -/
def mk (val : Int) : semaphore := ⟨val, false⟩

/-- Construction of `unique_lock<mutex> lck(m_mtx)`: enabled when the mutex is free. -/
def acquire (s : semaphore) : Option semaphore :=
  if s.m_mtx then none else some { s with m_mtx := true }

/-- One step of `wait`.  With the mutex owned, `m_cv.wait(lck, pred)` is
`while (!pred()) m_cv.wait(lck);`: a false predicate releases the mutex and blocks,
a true one goes on to `m_val--` and the release of `lck`. -/
def wait_step (s : semaphore) : BlkPc → Option (semaphore × Ctl BlkPc Unit)
  | .lock => (acquire s).map (fun s1 => (s1, .cont .body))
  | .body =>
    if s.m_val > 0 then some (⟨s.m_val - 1, false⟩, .ret ())
    else some (⟨s.m_val, false⟩, .cont .asleep)
  | .asleep => some (s, .cont .lock)

/-- One step of `post`.  The body is `m_val++` with no test in front of it; at
`INT_MAX` the increment stores the wrapped value `INT_MIN`.  The body ends with
`if (m_val > 0) m_cv.notify_all();`, which wakes sleepers that this model lets wake
at any time. -/
def post_step (s : semaphore) : BlkPc → Option (semaphore × Ctl BlkPc Unit)
  | .lock => (acquire s).map (fun s1 => (s1, .cont .body))
  | .body => some (⟨wrapInt (s.m_val + 1), false⟩, .ret ())
  | .asleep => none

/-- One step of `trywait`. -/
def trywait_step (s : semaphore) : BlkPc → Option (semaphore × Ctl BlkPc Bool)
  | .lock => (acquire s).map (fun s1 => (s1, .cont .body))
  | .body =>
    if s.m_val > 0 then some (⟨s.m_val - 1, false⟩, .ret true)
    else some (⟨s.m_val, false⟩, .ret false)
  | .asleep => none

/-- A call of `wait` with no other thread running, at most `fuel` steps. -/
def wait (fuel : Nat) (s : semaphore) : Option (semaphore × Unit) :=
  runAlone wait_step fuel s .lock

/-- A call of `post` with no other thread running. -/
def post (s : semaphore) : Option (semaphore × Unit) :=
  runAlone post_step 2 s .lock

/-- A call of `trywait` with no other thread running. -/
def trywait (s : semaphore) : Option (semaphore × Bool) :=
  runAlone trywait_step 2 s .lock

end semaphore

/-! ## The driver `semaphore.cpp` -/

/-- The four constants of the driver. -/
structure Config where
  BUF_LEN : Nat
  MAX_PRODUCT_COUNT : Int
  NUM_PROD_THREADS : Nat
  NUM_CONS_THREADS : Nat
  deriving DecidableEq, Repr

/-- The values the source gives the constants. -/
def srcConfig : Config := ⟨16, 32, 2, 4⟩

/-- The constants fit their C++ types: `BUF_LEN` is a positive array length and both
`BUF_LEN` and `MAX_PRODUCT_COUNT` are `int` values. -/
def Config.wf (cfg : Config) : Prop :=
  1 ≤ cfg.BUF_LEN ∧ (cfg.BUF_LEN : Int) ≤ INT_MAX ∧ cfg.MAX_PRODUCT_COUNT ≤ INT_MAX

/-- The globals of the driver, with two history lists that the program does not have:
`written` are the values stored by line 89 and `consumed` the values loaded by
line 138, each in the order of the accesses. -/
structure Shared where
  start : Nat
  tail : Nat
  buffer : List Int
  n_prod : Int
  n_cons : Int
  prod_count : Int
  empty : Int
  full : Int
  cs : Int
  pd : Int
  quit : semaphore
  written : List Int
  consumed : List Int
  deriving DecidableEq, Repr

/-- Control points of `producer_func`. -/
inductive ProdPc where
  /-- The `thread` object is not constructed yet. -/
  | unborn
  /-- Line 57, `n_prod++`. -/
  | entry
  /-- Line 64, inside `empty->wait()`. -/
  | emptyWait (pc : LfPc)
  /-- Line 69, inside `pd->wait()`. -/
  | pdWait (pc : LfPc)
  /-- Line 74, `if (prod_count >= MAX_PRODUCT_COUNT)`. -/
  | check
  /-- Line 78, `pd->post()` on the way out. -/
  | stopPdPost
  /-- Line 83, inside `quit->post()`. -/
  | stopQuitPost (pc : BlkPc)
  /-- Line 85, `n_prod--`. -/
  | stopDec
  /-- Line 89, `buffer[tail] = rnd()`. -/
  | write
  /-- Line 91, `tail = (tail + 1) % BUF_LEN`. -/
  | advance
  /-- Line 96, `pd->post()`. -/
  | pdPost
  /-- Line 101, `full->post()`. -/
  | fullPost
  /-- The function has returned. -/
  | exited
  deriving DecidableEq, Repr

/-- Control points of `consumer_func`. -/
inductive ConsPc where
  /-- The `thread` object is not constructed yet. -/
  | unborn
  /-- Line 106, `n_cons++`. -/
  | entry
  /-- Line 117, inside `full->wait()`. -/
  | fullWait (pc : LfPc)
  /-- Line 122, inside `cs->wait()`. -/
  | csWait (pc : LfPc)
  /-- Line 124, `if (prod_count >= MAX_PRODUCT_COUNT)`. -/
  | check
  /-- Line 128, `cs->post()` on the way out. -/
  | stopCsPost
  /-- Line 133, inside `quit->post()`. -/
  | stopQuitPost (pc : BlkPc)
  /-- Line 134, `n_cons--`. -/
  | stopDec
  /-- Line 138, the load of `buffer[start]`. -/
  | read
  /-- Line 139, `start = (start + 1) % BUF_LEN`. -/
  | advance
  /-- Line 144, `prod_count++`. -/
  | incCount
  /-- Line 149, `cs->post()`. -/
  | csPost
  /-- Line 154, `empty->post()`. -/
  | emptyPost
  /-- The function has returned. -/
  | exited
  deriving DecidableEq, Repr

/-- Control points of `main` (the five `new` of lines 162 to 166 make the initial state). -/
inductive MainPc where
  /-- Lines 170 to 172, the loop that starts the producers, at index `i`. -/
  | spawnProd (i : Nat)
  /-- Lines 174 to 176, the loop that starts the consumers, at index `i`. -/
  | spawnCons (i : Nat)
  /-- Line 178, inside `quit->wait()`. -/
  | quitWait (pc : BlkPc)
  /-- Line 180, the load of `n_prod` in `while (n_prod || n_cons)`. -/
  | loopProd
  /-- Line 180, the load of `n_cons`, reached when `n_prod` was zero. -/
  | loopCons
  /-- Line 181, `full->post()`. -/
  | floodFull
  /-- Line 182, `empty->post()`. -/
  | floodEmpty
  /-- Lines 185 to 187, `producers[i].join()`. -/
  | joinProd (i : Nat)
  /-- Lines 189 to 191, `consumers[i].join()`. -/
  | joinCons (i : Nat)
  /-- Line 193. -/
  | finished
  deriving DecidableEq, Repr

/-- One step of a thread running `producer_func`; `rnd` is the value `rnd()` returns
if this step is line 89.  `none` when the thread cannot take a step. -/
def producer_func (cfg : Config) (g : Shared) (rnd : Int) : ProdPc → Option (Shared × ProdPc)
  | .unborn => none
  | .entry => some ({ g with n_prod := wrapInt (g.n_prod + 1) }, .emptyWait .load)
  | .emptyWait pc =>
    match semaphore_lockfree.wait_step g.empty pc with
    | (m, .cont pc1) => some ({ g with empty := m }, .emptyWait pc1)
    | (m, .ret _) => some ({ g with empty := m }, .pdWait .load)
  | .pdWait pc =>
    match semaphore_lockfree.wait_step g.pd pc with
    | (m, .cont pc1) => some ({ g with pd := m }, .pdWait pc1)
    | (m, .ret _) => some ({ g with pd := m }, .check)
  | .check =>
    if g.prod_count ≥ cfg.MAX_PRODUCT_COUNT then some (g, .stopPdPost) else some (g, .write)
  | .stopPdPost => some ({ g with pd := semaphore_lockfree.post g.pd }, .stopQuitPost .lock)
  | .stopQuitPost pc =>
    match semaphore.post_step g.quit pc with
    | none => none
    | some (q, .cont pc1) => some ({ g with quit := q }, .stopQuitPost pc1)
    | some (q, .ret _) => some ({ g with quit := q }, .stopDec)
  | .stopDec => some ({ g with n_prod := wrapInt (g.n_prod - 1) }, .exited)
  | .write =>
    if g.tail < g.buffer.length then
      some ({ g with buffer := g.buffer.set g.tail rnd, written := g.written ++ [rnd] }, .advance)
    else none
  | .advance => some ({ g with tail := (g.tail + 1) % cfg.BUF_LEN }, .pdPost)
  | .pdPost => some ({ g with pd := semaphore_lockfree.post g.pd }, .fullPost)
  | .fullPost => some ({ g with full := semaphore_lockfree.post g.full }, .emptyWait .load)
  | .exited => none

/-- One step of a thread running `consumer_func`.  `none` when the thread cannot take a
step. -/
def consumer_func (cfg : Config) (g : Shared) : ConsPc → Option (Shared × ConsPc)
  | .unborn => none
  | .entry => some ({ g with n_cons := wrapInt (g.n_cons + 1) }, .fullWait .load)
  | .fullWait pc =>
    match semaphore_lockfree.wait_step g.full pc with
    | (m, .cont pc1) => some ({ g with full := m }, .fullWait pc1)
    | (m, .ret _) => some ({ g with full := m }, .csWait .load)
  | .csWait pc =>
    match semaphore_lockfree.wait_step g.cs pc with
    | (m, .cont pc1) => some ({ g with cs := m }, .csWait pc1)
    | (m, .ret _) => some ({ g with cs := m }, .check)
  | .check =>
    if g.prod_count ≥ cfg.MAX_PRODUCT_COUNT then some (g, .stopCsPost) else some (g, .read)
  | .stopCsPost => some ({ g with cs := semaphore_lockfree.post g.cs }, .stopQuitPost .lock)
  | .stopQuitPost pc =>
    match semaphore.post_step g.quit pc with
    | none => none
    | some (q, .cont pc1) => some ({ g with quit := q }, .stopQuitPost pc1)
    | some (q, .ret _) => some ({ g with quit := q }, .stopDec)
  | .stopDec => some ({ g with n_cons := wrapInt (g.n_cons - 1) }, .exited)
  | .read =>
    match g.buffer[g.start]? with
    | none => none
    | some v => some ({ g with consumed := g.consumed ++ [v] }, .advance)
  | .advance => some ({ g with start := (g.start + 1) % cfg.BUF_LEN }, .incCount)
  | .incCount => some ({ g with prod_count := wrapInt (g.prod_count + 1) }, .csPost)
  | .csPost => some ({ g with cs := semaphore_lockfree.post g.cs }, .emptyPost)
  | .emptyPost => some ({ g with empty := semaphore_lockfree.post g.empty }, .fullWait .load)
  | .exited => none

/-- A state of the running program. -/
structure State where
  g : Shared
  producers : List ProdPc
  consumers : List ConsPc
  main : MainPc
  deriving DecidableEq, Repr

/-- One step of the thread running `main`.  `none` when it cannot take a step. -/
def main_step (cfg : Config) (s : State) : Option State :=
  match s.main with
  | .spawnProd i =>
    if i < cfg.NUM_PROD_THREADS then
      match s.producers[i]? with
      | some .unborn =>
        some { s with producers := s.producers.set i .entry, main := .spawnProd (i + 1) }
      | _ => none
    else some { s with main := .spawnCons 0 }
  | .spawnCons i =>
    if i < cfg.NUM_CONS_THREADS then
      match s.consumers[i]? with
      | some .unborn =>
        some { s with consumers := s.consumers.set i .entry, main := .spawnCons (i + 1) }
      | _ => none
    else some { s with main := .quitWait .lock }
  | .quitWait pc =>
    match semaphore.wait_step s.g.quit pc with
    | none => none
    | some (q, .cont pc1) => some { s with g := { s.g with quit := q }, main := .quitWait pc1 }
    | some (q, .ret _) => some { s with g := { s.g with quit := q }, main := .loopProd }
  | .loopProd =>
    if s.g.n_prod ≠ 0 then some { s with main := .floodFull }
    else some { s with main := .loopCons }
  | .loopCons =>
    if s.g.n_cons ≠ 0 then some { s with main := .floodFull }
    else some { s with main := .joinProd 0 }
  | .floodFull =>
    some { s with g := { s.g with full := semaphore_lockfree.post s.g.full }, main := .floodEmpty }
  | .floodEmpty =>
    some { s with g := { s.g with empty := semaphore_lockfree.post s.g.empty }, main := .loopProd }
  | .joinProd i =>
    if i < cfg.NUM_PROD_THREADS then
      match s.producers[i]? with
      | some .exited => some { s with main := .joinProd (i + 1) }
      | _ => none
    else some { s with main := .joinCons 0 }
  | .joinCons i =>
    if i < cfg.NUM_CONS_THREADS then
      match s.consumers[i]? with
      | some .exited => some { s with main := .joinCons (i + 1) }
      | _ => none
    else some { s with main := .finished }
  | .finished => none

/-- Who takes the next step: producer `i` (with the value its `rnd()` would return),
consumer `i`, or `main`. -/
inductive Action where
  | producer (i : Nat) (rnd : Int)
  | consumer (i : Nat)
  | main
  deriving DecidableEq, Repr

/-- One step of the program. -/
def step (cfg : Config) (s : State) : Action → Option State
  | .producer i rnd =>
    match s.producers[i]? with
    | none => none
    | some pc =>
      match producer_func cfg s.g rnd pc with
      | none => none
      | some (g1, pc1) => some { s with g := g1, producers := s.producers.set i pc1 }
  | .consumer i =>
    match s.consumers[i]? with
    | none => none
    | some pc =>
      match consumer_func cfg s.g pc with
      | none => none
      | some (g1, pc1) => some { s with g := g1, consumers := s.consumers.set i pc1 }
  | .main => main_step cfg s

/-- The state at the start of `main`, after lines 162 to 166. -/
def init (cfg : Config) : State where
  g := {
    start := 0
    tail := 0
    buffer := List.replicate cfg.BUF_LEN 0
    n_prod := 0
    n_cons := 0
    prod_count := 0
    full := semaphore_lockfree.mk 0
    empty := semaphore_lockfree.mk cfg.BUF_LEN
    pd := semaphore_lockfree.mk 1
    cs := semaphore_lockfree.mk 1
    quit := semaphore.mk 0
    written := []
    consumed := [] }
  producers := List.replicate cfg.NUM_PROD_THREADS .unborn
  consumers := List.replicate cfg.NUM_CONS_THREADS .unborn
  main := .spawnProd 0

/-- The states the program can be in. -/
inductive Reachable (cfg : Config) : State → Prop where
  | init : Reachable cfg (init cfg)
  | step {s s1 : State} (a : Action) : Reachable cfg s → step cfg s a = some s1 → Reachable cfg s1

/-- Runs a schedule (a list of actions) from a state. -/
def run (cfg : Config) : State → List Action → Option State
  | s, [] => some s
  | s, a :: as =>
    match step cfg s a with
    | none => none
    | some s1 => run cfg s1 as

/-! ## Counting threads by source line -/

/-- The source line of a control point of `producer_func` (0 before the thread starts,
103 after the function has returned). -/
def ProdPc.line : ProdPc → Nat
  | .unborn => 0
  | .entry => 57
  | .emptyWait _ => 64
  | .pdWait _ => 69
  | .check => 74
  | .stopPdPost => 78
  | .stopQuitPost _ => 83
  | .stopDec => 85
  | .write => 89
  | .advance => 91
  | .pdPost => 96
  | .fullPost => 101
  | .exited => 103

/-- The source line of a control point of `consumer_func` (0 before the thread starts,
156 after the function has returned). -/
def ConsPc.line : ConsPc → Nat
  | .unborn => 0
  | .entry => 106
  | .fullWait _ => 117
  | .csWait _ => 122
  | .check => 124
  | .stopCsPost => 128
  | .stopQuitPost _ => 133
  | .stopDec => 134
  | .read => 138
  | .advance => 139
  | .incCount => 144
  | .csPost => 149
  | .emptyPost => 154
  | .exited => 156

/-- Number of producer threads standing at source line `n`. -/
def prodAt (n : Nat) (l : List ProdPc) : Nat := l.countP (fun p => p.line = n)

/-- Number of consumer threads standing at source line `n`. -/
def consAt (n : Nat) (l : List ConsPc) : Nat := l.countP (fun p => p.line = n)

/-- Producers between the return of `pd->wait()` and their `pd->post()`: lines 74 to 96
(line 78 on the way out). -/
def prodInSection (l : List ProdPc) : Nat :=
  prodAt 74 l + prodAt 78 l + prodAt 89 l + prodAt 91 l + prodAt 96 l

/-- Consumers between the return of `cs->wait()` and their `cs->post()`: lines 124 to 149
(line 128 on the way out). -/
def consInSection (l : List ConsPc) : Nat :=
  consAt 124 l + consAt 128 l + consAt 138 l + consAt 139 l + consAt 144 l + consAt 149 l

/-- Producers that took a permit of `empty` and have not stored yet (normal path). -/
def holdsEmpty (l : List ProdPc) : Nat := prodAt 69 l + prodAt 74 l + prodAt 89 l

/-- Producers that stored and have not posted `full` yet. -/
def stored (l : List ProdPc) : Nat := prodAt 91 l + prodAt 96 l + prodAt 101 l

/-- Consumers that took a permit of `full` and have not loaded yet (normal path). -/
def holdsFull (l : List ConsPc) : Nat := consAt 122 l + consAt 124 l + consAt 138 l

/-- Consumers that loaded and have not posted `empty` yet. -/
def loaded (l : List ConsPc) : Nat :=
  consAt 139 l + consAt 144 l + consAt 149 l + consAt 154 l

/-- Producers that found the stop condition true at line 74. -/
def stoppedProd (l : List ProdPc) : Nat :=
  prodAt 78 l + prodAt 83 l + prodAt 85 l + prodAt 103 l

/-- Consumers that found the stop condition true at line 124. -/
def stoppedCons (l : List ConsPc) : Nat :=
  consAt 128 l + consAt 133 l + consAt 134 l + consAt 156 l

/-- Workers that found the stop condition true: they are on the exit branch or gone. -/
def stopped (s : State) : Nat := stoppedProd s.producers + stoppedCons s.consumers

/-- Number 1 when `main` is past `quit->wait()`, else 0. -/
def MainPc.pastQuit : MainPc → Nat
  | .spawnProd _ => 0
  | .spawnCons _ => 0
  | .quitWait _ => 0
  | _ => 1

/-- No worker stands between its wait on `empty` or `full` and the matching post on the
other semaphore: every worker is before its first wait, inside that wait, or gone. -/
def Quiescent (s : State) : Prop :=
  (∀ p ∈ s.producers, p.line = 0 ∨ p.line = 57 ∨ p.line = 64 ∨ p.line = 103) ∧
  (∀ c ∈ s.consumers, c.line = 0 ∨ c.line = 106 ∨ c.line = 117 ∨ c.line = 156)

instance (s : State) : Decidable (Quiescent s) := by
  unfold Quiescent; infer_instance

/-- The counting invariant of the driver. -/
structure InvA (cfg : Config) (s : State) : Prop where
  pd_nonneg : 0 ≤ s.g.pd
  pd_mutex : s.g.pd + prodInSection s.producers = 1
  cs_nonneg : 0 ≤ s.g.cs
  cs_mutex : s.g.cs + consInSection s.consumers = 1
  count_nonneg : 0 ≤ s.g.prod_count
  count_eq : s.g.prod_count + consAt 139 s.consumers + consAt 144 s.consumers
    = s.g.consumed.length
  count_lt : 1 ≤ consAt 138 s.consumers + consAt 139 s.consumers + consAt 144 s.consumers →
    s.g.prod_count < cfg.MAX_PRODUCT_COUNT
  stop_ge : 1 ≤ stopped s → cfg.MAX_PRODUCT_COUNT ≤ s.g.prod_count
  quit_eq : s.g.quit.m_val
    = wrapInt ((prodAt 85 s.producers + prodAt 103 s.producers
        + consAt 134 s.consumers + consAt 156 s.consumers : Nat) - s.main.pastQuit)
  quit_le : s.main.pastQuit
    ≤ prodAt 85 s.producers + prodAt 103 s.producers
      + consAt 134 s.consumers + consAt 156 s.consumers
  empty_nonneg : stopped s = 0 → 0 ≤ s.g.empty
  empty_eq : stopped s = 0 →
    s.g.empty + holdsEmpty s.producers + s.g.written.length + loaded s.consumers
      = cfg.BUF_LEN + s.g.consumed.length
  full_nonneg : stopped s = 0 → 0 ≤ s.g.full
  full_eq : stopped s = 0 →
    s.g.full + holdsFull s.consumers + stored s.producers + s.g.consumed.length
      = s.g.written.length
  ahead_le : s.g.written.length + prodAt 89 s.producers ≤ s.g.consumed.length + cfg.BUF_LEN
  behind_le : s.g.consumed.length + consAt 138 s.consumers ≤ s.g.written.length

/-- The invariant on the buffer, the indices and the two histories. -/
structure InvD (cfg : Config) (s : State) : Prop where
  buf_len : s.g.buffer.length = cfg.BUF_LEN
  tail_lt : s.g.tail < cfg.BUF_LEN
  tail_eq : (s.g.tail + prodAt 91 s.producers) % cfg.BUF_LEN = s.g.written.length % cfg.BUF_LEN
  start_lt : s.g.start < cfg.BUF_LEN
  start_eq : (s.g.start + consAt 139 s.consumers) % cfg.BUF_LEN
    = s.g.consumed.length % cfg.BUF_LEN
  slots : ∀ j, s.g.consumed.length ≤ j → j < s.g.written.length →
    s.g.buffer[j % cfg.BUF_LEN]? = s.g.written[j]?
  fifo : s.g.consumed <+: s.g.written

/-! ## Clients of one semaphore -/

/-- The three member functions of `semaphore_interface`. -/
inductive Op where
  | wait
  | post
  | trywait
  deriving DecidableEq, Repr

/-- `n` calls of `semaphore_lockfree::trywait` in a row with no other thread running:
the flags returned, in order, and the count afterwards. -/
def semaphore_lockfree.trywaits : Nat → Int → Option (List Bool × Int)
  | 0, m_val => some ([], m_val)
  | n + 1, m_val =>
    match semaphore_lockfree.trywait m_val with
    | none => none
    | some (m, r) =>
      match semaphore_lockfree.trywaits n m with
      | none => none
      | some (rs, m1) => some (r :: rs, m1)

/-- `n` calls of `semaphore::trywait` in a row with no other thread running: the flags
returned, in order, and the semaphore afterwards. -/
def semaphore.trywaits : Nat → semaphore → Option (List Bool × semaphore)
  | 0, s => some ([], s)
  | n + 1, s =>
    match semaphore.trywait s with
    | none => none
    | some (s1, r) =>
      match semaphore.trywaits n s1 with
      | none => none
      | some (rs, s2) => some (r :: rs, s2)

/-- What a thread that uses one `semaphore_lockfree` is doing: between two calls, or
inside `wait` or `trywait` (`post` is a single step). -/
inductive LfClient where
  | idle
  | inWait (pc : LfPc)
  | inTrywait (pc : LfPc)
  deriving DecidableEq, Repr

/-- One `semaphore_lockfree` and the threads that use it, with the numbers of calls that
have completed so far (the program does not keep these counters). -/
structure LfSys where
  m_val : Int
  threads : List LfClient
  posts : Nat
  waits : Nat
  tryOk : Nat
  tryFail : Nat
  deriving DecidableEq, Repr

/-- The semaphore just constructed with count `c0` and `n` threads between calls. -/
def LfSys.init (c0 : Int) (n : Nat) : LfSys :=
  ⟨semaphore_lockfree.mk c0, List.replicate n .idle, 0, 0, 0, 0⟩

/-- Thread `i` takes one step; `op` is the member function it calls if it stands
between two calls. -/
def LfSys.step (s : LfSys) (i : Nat) (op : Op) : Option LfSys :=
  match s.threads[i]? with
  | none => none
  | some .idle =>
    match op with
    | .wait => some { s with threads := s.threads.set i (.inWait .load) }
    | .post => some { s with m_val := semaphore_lockfree.post s.m_val, posts := s.posts + 1 }
    | .trywait => some { s with threads := s.threads.set i (.inTrywait .load) }
  | some (.inWait pc) =>
    match semaphore_lockfree.wait_step s.m_val pc with
    | (m, .cont pc1) => some { s with m_val := m, threads := s.threads.set i (.inWait pc1) }
    | (m, .ret _) =>
      some { s with m_val := m, threads := s.threads.set i .idle, waits := s.waits + 1 }
  | some (.inTrywait pc) =>
    match semaphore_lockfree.trywait_step s.m_val pc with
    | (m, .cont pc1) => some { s with m_val := m, threads := s.threads.set i (.inTrywait pc1) }
    | (m, .ret true) =>
      some { s with m_val := m, threads := s.threads.set i .idle, tryOk := s.tryOk + 1 }
    | (m, .ret false) =>
      some { s with m_val := m, threads := s.threads.set i .idle, tryFail := s.tryFail + 1 }

/-- The states that `n` threads can bring a `semaphore_lockfree` constructed with `c0` to. -/
inductive LfSys.Reachable (c0 : Int) (n : Nat) : LfSys → Prop where
  | init : LfSys.Reachable c0 n (LfSys.init c0 n)
  | step {s s1 : LfSys} (i : Nat) (op : Op) :
    LfSys.Reachable c0 n s → s.step i op = some s1 → LfSys.Reachable c0 n s1

/-- What a thread that uses one `semaphore` is doing. -/
inductive BlkClient where
  | idle
  | inWait (pc : BlkPc)
  | inPost (pc : BlkPc)
  | inTrywait (pc : BlkPc)
  deriving DecidableEq, Repr

/-- One `semaphore` and the threads that use it, with the numbers of calls that have
completed so far. -/
structure BlkSys where
  sem : semaphore
  threads : List BlkClient
  posts : Nat
  waits : Nat
  tryOk : Nat
  tryFail : Nat
  deriving DecidableEq, Repr

/-- The semaphore just constructed with count `c0` and `n` threads between calls. -/
def BlkSys.init (c0 : Int) (n : Nat) : BlkSys :=
  ⟨semaphore.mk c0, List.replicate n .idle, 0, 0, 0, 0⟩

/-- Thread `i` takes one step; `op` is the member function it calls if it stands
between two calls. -/
def BlkSys.step (s : BlkSys) (i : Nat) (op : Op) : Option BlkSys :=
  match s.threads[i]? with
  | none => none
  | some .idle =>
    match op with
    | .wait => some { s with threads := s.threads.set i (.inWait .lock) }
    | .post => some { s with threads := s.threads.set i (.inPost .lock) }
    | .trywait => some { s with threads := s.threads.set i (.inTrywait .lock) }
  | some (.inWait pc) =>
    match semaphore.wait_step s.sem pc with
    | none => none
    | some (q, .cont pc1) => some { s with sem := q, threads := s.threads.set i (.inWait pc1) }
    | some (q, .ret _) =>
      some { s with sem := q, threads := s.threads.set i .idle, waits := s.waits + 1 }
  | some (.inPost pc) =>
    match semaphore.post_step s.sem pc with
    | none => none
    | some (q, .cont pc1) => some { s with sem := q, threads := s.threads.set i (.inPost pc1) }
    | some (q, .ret _) =>
      some { s with sem := q, threads := s.threads.set i .idle, posts := s.posts + 1 }
  | some (.inTrywait pc) =>
    match semaphore.trywait_step s.sem pc with
    | none => none
    | some (q, .cont pc1) => some { s with sem := q, threads := s.threads.set i (.inTrywait pc1) }
    | some (q, .ret true) =>
      some { s with sem := q, threads := s.threads.set i .idle, tryOk := s.tryOk + 1 }
    | some (q, .ret false) =>
      some { s with sem := q, threads := s.threads.set i .idle, tryFail := s.tryFail + 1 }

/-- The states that `n` threads can bring a `semaphore` constructed with `c0` to. -/
inductive BlkSys.Reachable (c0 : Int) (n : Nat) : BlkSys → Prop where
  | init : BlkSys.Reachable c0 n (BlkSys.init c0 n)
  | step {s s1 : BlkSys} (i : Nat) (op : Op) :
    BlkSys.Reachable c0 n s → s.step i op = some s1 → BlkSys.Reachable c0 n s1

/-- Number of threads that own the mutex of the `semaphore`. -/
def BlkSys.owners (l : List BlkClient) : Nat :=
  l.countP (fun t => t = .inWait .body ∨ t = .inPost .body ∨ t = .inTrywait .body)

/-- Runs a schedule of `(thread, call)` pairs from a state. -/
def LfSys.run : LfSys → List (Nat × Op) → Option LfSys
  | s, [] => some s
  | s, (i, op) :: rest =>
    match s.step i op with
    | none => none
    | some s1 => LfSys.run s1 rest

/-- Runs a schedule of `(thread, call)` pairs from a state. -/
def BlkSys.run : BlkSys → List (Nat × Op) → Option BlkSys
  | s, [] => some s
  | s, (i, op) :: rest =>
    match s.step i op with
    | none => none
    | some s1 => BlkSys.run s1 rest

/-- The invariant of a `semaphore` with its clients: the count is the wrapped balance of
the completed calls, the balance itself is never negative, and the mutex is owned by
exactly the threads standing inside a body, of which there is at most one. -/
def BlkInv (c0 : Int) (s : BlkSys) : Prop :=
  s.sem.m_val = wrapInt (c0 + s.posts - s.waits - s.tryOk) ∧
    0 ≤ c0 + s.posts - s.waits - s.tryOk ∧
    BlkSys.owners s.threads = (if s.sem.m_mtx then 1 else 0)

/-! ## Schedules of the driver used as concrete runs -/

/-- `main` starts the two producers and the four consumers (lines 170 to 176). -/
def startAll : List Action := List.replicate 8 Action.main

/-- Producer `i` goes once round its loop, storing `v`: the two steps of `empty->wait()`,
the two steps of `pd->wait()`, the test, the store, the index update and the two posts. -/
def produceOne (i : Nat) (v : Int) : List Action := List.replicate 9 (Action.producer i v)

/-- Consumer `i` goes once round its loop: the two steps of `full->wait()`, the two steps
of `cs->wait()`, the test, the load, the index update, the count and the two posts. -/
def consumeOne (i : Nat) : List Action := List.replicate 10 (Action.consumer i)

/-- A worker that finds the stop condition true leaves in nine steps: two waits of two
steps, the test, the post of its mutex, the two steps of `quit->post()` and the decrement. -/
def producerLeaves (i : Nat) : List Action := List.replicate 9 (Action.producer i 0)

/-- See `producerLeaves`. -/
def consumerLeaves (i : Nat) : List Action := List.replicate 9 (Action.consumer i)

/-- A short run: both roles start, producer 0 stores 10, 20 and 30, consumer 0 loads
twice, and producer 1 is stopped in the middle of its loop. -/
def shortSchedule : List Action :=
  startAll ++ [Action.producer 0 0, Action.consumer 0, Action.producer 1 0]
    ++ produceOne 0 10 ++ produceOne 0 20 ++ consumeOne 0 ++ produceOne 0 30 ++ consumeOne 0
    ++ List.replicate 5 (Action.producer 1 40)

/-- A complete run of the program as the source configures it: producer 0 and consumer 0
move 32 items one at a time, both producers find the stop condition and leave, `main`
returns from `quit->wait()` and goes four times round its loop, the four consumers
leave, and `main` joins all six threads and returns. -/
def fullSchedule : List Action :=
  startAll ++ [Action.producer 0 0, Action.consumer 0]
    ++ (List.replicate 32 (produceOne 0 7 ++ consumeOne 0)).flatten
    ++ producerLeaves 0 ++ [Action.producer 1 0] ++ producerLeaves 1
    ++ [Action.consumer 1, Action.consumer 2, Action.consumer 3]
    ++ List.replicate 18 Action.main
    ++ consumerLeaves 0 ++ consumerLeaves 1 ++ consumerLeaves 2 ++ consumerLeaves 3
    ++ List.replicate 10 Action.main

/-- A run that ends with no worker between a wait and the matching post: producer 0 has
stored 10 and 20 and consumer 0 has loaded once. -/
def quietSchedule : List Action :=
  startAll ++ [Action.producer 0 0, Action.consumer 0, Action.producer 1 0]
    ++ produceOne 0 10 ++ produceOne 0 20 ++ consumeOne 0

/-- A schedule for three clients of one semaphore: thread 0 posts, thread 1 waits,
thread 2 tries four times. -/
def clientSchedule : List (Nat × Op) :=
  List.replicate 3 (0, Op.post) ++ List.replicate 3 (1, Op.wait)
    ++ List.replicate 12 (2, Op.trywait)

/-- A lost race on one `semaphore_lockfree`: thread 0 calls `trywait` and loads the count,
thread 1 posts, and thread 0 then runs its compare-and-swap. -/
def raceSchedule : List (Nat × Op) :=
  [(0, Op.trywait), (0, Op.trywait), (1, Op.post), (0, Op.trywait)]

/-- The state a schedule leads a `semaphore_lockfree` to (the initial state if some step
of the schedule is not enabled). -/
def LfSys.runD (c0 : Int) (n : Nat) (sched : List (Nat × Op)) : LfSys :=
  (LfSys.run (LfSys.init c0 n) sched).getD (LfSys.init c0 n)

/-- The state a schedule leads a `semaphore` to (the initial state if some step of the
schedule is not enabled). -/
def BlkSys.runD (c0 : Int) (n : Nat) (sched : List (Nat × Op)) : BlkSys :=
  (BlkSys.run (BlkSys.init c0 n) sched).getD (BlkSys.init c0 n)

/-- The state a schedule leads to from the start of `main` (the start itself if some
step of the schedule is not enabled). -/
def runD (cfg : Config) (sched : List Action) : State :=
  (run cfg (init cfg) sched).getD (init cfg)

/-! ## Preservation of the counting invariant -/

theorem prodAt_append (n : Nat) (l1 l2 : List ProdPc) :
    prodAt n (l1 ++ l2) = prodAt n l1 + prodAt n l2 := by
  simp [prodAt, List.countP_append]

theorem prodAt_cons (n : Nat) (a : ProdPc) (l : List ProdPc) :
    prodAt n (a :: l) = prodAt n l + (if a.line = n then 1 else 0) := by
  simp [prodAt, List.countP_cons]

theorem consAt_append (n : Nat) (l1 l2 : List ConsPc) :
    consAt n (l1 ++ l2) = consAt n l1 + consAt n l2 := by
  simp [consAt, List.countP_append]

theorem consAt_cons (n : Nat) (a : ConsPc) (l : List ConsPc) :
    consAt n (a :: l) = consAt n l + (if a.line = n then 1 else 0) := by
  simp [consAt, List.countP_cons]

/-- Replacing the element at index `i` splits the list around it. -/
theorem set_split {α : Type} (l : List α) (i : Nat) (a b : α) (h : l[i]? = some a) :
    ∃ l1 l2, l = l1 ++ a :: l2 ∧ l.set i b = l1 ++ b :: l2 := by
  induction l generalizing i with
  | nil => simp at h
  | cons x xs ih =>
    cases i with
    | zero =>
      simp at h
      exact ⟨[], xs, by simp [h], by simp⟩
    | succ k =>
      simp at h
      obtain ⟨l1, l2, h1, h2⟩ := ih k h
      exact ⟨x :: l1, l2, by simp [h1], by simp [h2]⟩

theorem wait_step_test_ret {m o : Int} (h1 : 0 < o) (h2 : m = o) :
    semaphore_lockfree.wait_step m (.test o) = (m - 1, .ret ()) := by
  have h3 : ¬ o ≤ 0 := by omega
  simp [semaphore_lockfree.wait_step, semaphore_lockfree.wait_iter, compare_exchange_strong, h2, h3]

theorem wait_step_test_cont {m o : Int} (h : ¬ (0 < o ∧ m = o)) :
    semaphore_lockfree.wait_step m (.test o) = (m, .cont .load) := by
  by_cases h1 : o ≤ 0
  · simp [semaphore_lockfree.wait_step, semaphore_lockfree.wait_iter, h1]
  · have h2 : ¬ m = o := fun e => h ⟨by omega, e⟩
    simp [semaphore_lockfree.wait_step, semaphore_lockfree.wait_iter, compare_exchange_strong, h1, h2]

set_option maxHeartbeats 2000000 in
theorem invA_producer {cfg : Config} (hwf : cfg.wf) {g g1 : Shared} {l1 l2 : List ProdPc}
    {a b : ProdPc} {C : List ConsPc} {m : MainPc} {rnd : Int}
    (h : producer_func cfg g rnd a = some (g1, b))
    (hI : InvA cfg ⟨g, l1 ++ a :: l2, C, m⟩) : InvA cfg ⟨g1, l1 ++ b :: l2, C, m⟩ := by
  obtain ⟨h1, h2, h3, h4, h5, h6, h7, h8, h9, h10, h11, h12, h13, h14, h15, h16⟩ := hI
  obtain ⟨w1, w2, w3⟩ := hwf
  simp only [stopped, stoppedProd, stoppedCons, prodInSection, consInSection, holdsEmpty, stored,
      holdsFull, loaded, prodAt_append, prodAt_cons, consAt_append, consAt_cons, wrapInt, INT_MAX] at *
  cases a with
  | unborn => simp [producer_func] at h
  | exited => simp [producer_func] at h
  | entry =>
    simp only [producer_func, semaphore_lockfree.post, wrapInt, Option.some.injEq, Prod.mk.injEq] at h
    obtain ⟨rfl, rfl⟩ := h
    simp only [ProdPc.line, ConsPc.line, Nat.reduceEqDiff, reduceIte, List.length_append,
      List.length_singleton] at *
    constructor <;> simp only [stopped, stoppedProd, stoppedCons, prodInSection, consInSection, holdsEmpty, stored,
      holdsFull, loaded, prodAt_append, prodAt_cons, consAt_append, consAt_cons, wrapInt,
      ProdPc.line, ConsPc.line, Nat.reduceEqDiff, reduceIte, List.length_append,
      List.length_singleton] <;>
      first | assumption | omega
  | emptyWait pc =>
    cases pc with
    | load =>
      simp only [producer_func, semaphore_lockfree.wait_step, Option.some.injEq, Prod.mk.injEq] at h
      obtain ⟨rfl, rfl⟩ := h
      simp only [ProdPc.line, ConsPc.line, Nat.reduceEqDiff, reduceIte, List.length_append,
      List.length_singleton] at *
      constructor <;> simp only [stopped, stoppedProd, stoppedCons, prodInSection, consInSection, holdsEmpty, stored,
      holdsFull, loaded, prodAt_append, prodAt_cons, consAt_append, consAt_cons, wrapInt,
        ProdPc.line, ConsPc.line, Nat.reduceEqDiff, reduceIte, List.length_append,
      List.length_singleton] <;>
        first | assumption | omega
    | test o =>
      by_cases hc : 0 < o ∧ g.empty = o
      · simp only [producer_func, wait_step_test_ret hc.1 hc.2, Option.some.injEq, Prod.mk.injEq] at h
        obtain ⟨rfl, rfl⟩ := h
        simp only [ProdPc.line, ConsPc.line, Nat.reduceEqDiff, reduceIte, List.length_append,
      List.length_singleton] at *
        constructor <;> simp only [stopped, stoppedProd, stoppedCons, prodInSection, consInSection, holdsEmpty, stored,
      holdsFull, loaded, prodAt_append, prodAt_cons, consAt_append, consAt_cons, wrapInt,
          ProdPc.line, ConsPc.line, Nat.reduceEqDiff, reduceIte, List.length_append,
      List.length_singleton] <;>
          first | assumption | omega
      · simp only [producer_func, wait_step_test_cont hc, Option.some.injEq, Prod.mk.injEq] at h
        obtain ⟨rfl, rfl⟩ := h
        simp only [ProdPc.line, ConsPc.line, Nat.reduceEqDiff, reduceIte, List.length_append,
      List.length_singleton] at *
        constructor <;> simp only [stopped, stoppedProd, stoppedCons, prodInSection, consInSection, holdsEmpty, stored,
      holdsFull, loaded, prodAt_append, prodAt_cons, consAt_append, consAt_cons, wrapInt,
          ProdPc.line, ConsPc.line, Nat.reduceEqDiff, reduceIte, List.length_append,
      List.length_singleton] <;>
          first | assumption | omega
  | pdWait pc =>
    cases pc with
    | load =>
      simp only [producer_func, semaphore_lockfree.wait_step, Option.some.injEq, Prod.mk.injEq] at h
      obtain ⟨rfl, rfl⟩ := h
      simp only [ProdPc.line, ConsPc.line, Nat.reduceEqDiff, reduceIte, List.length_append,
      List.length_singleton] at *
      constructor <;> simp only [stopped, stoppedProd, stoppedCons, prodInSection, consInSection, holdsEmpty, stored,
      holdsFull, loaded, prodAt_append, prodAt_cons, consAt_append, consAt_cons, wrapInt,
        ProdPc.line, ConsPc.line, Nat.reduceEqDiff, reduceIte, List.length_append,
      List.length_singleton] <;>
        first | assumption | omega
    | test o =>
      by_cases hc : 0 < o ∧ g.pd = o
      · simp only [producer_func, wait_step_test_ret hc.1 hc.2, Option.some.injEq, Prod.mk.injEq] at h
        obtain ⟨rfl, rfl⟩ := h
        simp only [ProdPc.line, ConsPc.line, Nat.reduceEqDiff, reduceIte, List.length_append,
      List.length_singleton] at *
        constructor <;> simp only [stopped, stoppedProd, stoppedCons, prodInSection, consInSection, holdsEmpty, stored,
      holdsFull, loaded, prodAt_append, prodAt_cons, consAt_append, consAt_cons, wrapInt,
          ProdPc.line, ConsPc.line, Nat.reduceEqDiff, reduceIte, List.length_append,
      List.length_singleton] <;>
          first | assumption | omega
      · simp only [producer_func, wait_step_test_cont hc, Option.some.injEq, Prod.mk.injEq] at h
        obtain ⟨rfl, rfl⟩ := h
        simp only [ProdPc.line, ConsPc.line, Nat.reduceEqDiff, reduceIte, List.length_append,
      List.length_singleton] at *
        constructor <;> simp only [stopped, stoppedProd, stoppedCons, prodInSection, consInSection, holdsEmpty, stored,
      holdsFull, loaded, prodAt_append, prodAt_cons, consAt_append, consAt_cons, wrapInt,
          ProdPc.line, ConsPc.line, Nat.reduceEqDiff, reduceIte, List.length_append,
      List.length_singleton] <;>
          first | assumption | omega
  | check =>
    simp only [producer_func] at h
    split at h <;> simp only [Option.some.injEq, Prod.mk.injEq] at h
    ·
      obtain ⟨rfl, rfl⟩ := h
      simp only [ProdPc.line, ConsPc.line, Nat.reduceEqDiff, reduceIte, List.length_append,
      List.length_singleton] at *
      constructor <;> simp only [stopped, stoppedProd, stoppedCons, prodInSection, consInSection, holdsEmpty, stored,
      holdsFull, loaded, prodAt_append, prodAt_cons, consAt_append, consAt_cons, wrapInt,
        ProdPc.line, ConsPc.line, Nat.reduceEqDiff, reduceIte, List.length_append,
      List.length_singleton] <;>
        first | assumption | omega
    ·
      obtain ⟨rfl, rfl⟩ := h
      simp only [ProdPc.line, ConsPc.line, Nat.reduceEqDiff, reduceIte, List.length_append,
      List.length_singleton] at *
      constructor <;> simp only [stopped, stoppedProd, stoppedCons, prodInSection, consInSection, holdsEmpty, stored,
      holdsFull, loaded, prodAt_append, prodAt_cons, consAt_append, consAt_cons, wrapInt,
        ProdPc.line, ConsPc.line, Nat.reduceEqDiff, reduceIte, List.length_append,
      List.length_singleton] <;>
        first | assumption | omega
  | stopPdPost =>
    simp only [producer_func, semaphore_lockfree.post, wrapInt, Option.some.injEq, Prod.mk.injEq] at h
    obtain ⟨rfl, rfl⟩ := h
    simp only [ProdPc.line, ConsPc.line, Nat.reduceEqDiff, reduceIte, List.length_append,
      List.length_singleton] at *
    constructor <;> simp only [stopped, stoppedProd, stoppedCons, prodInSection, consInSection, holdsEmpty, stored,
      holdsFull, loaded, prodAt_append, prodAt_cons, consAt_append, consAt_cons, wrapInt,
      ProdPc.line, ConsPc.line, Nat.reduceEqDiff, reduceIte, List.length_append,
      List.length_singleton] <;>
      first | assumption | omega
  | stopQuitPost pc =>
    cases pc with
    | lock =>
      by_cases hc : g.quit.m_mtx = true <;>
        simp [producer_func, semaphore.post_step, semaphore.acquire, hc] at h
      obtain ⟨rfl, rfl⟩ := h
      simp only [ProdPc.line, ConsPc.line, Nat.reduceEqDiff, reduceIte, List.length_append,
      List.length_singleton] at *
      constructor <;> simp only [stopped, stoppedProd, stoppedCons, prodInSection, consInSection, holdsEmpty, stored,
      holdsFull, loaded, prodAt_append, prodAt_cons, consAt_append, consAt_cons, wrapInt,
        ProdPc.line, ConsPc.line, Nat.reduceEqDiff, reduceIte, List.length_append,
      List.length_singleton] <;>
        first | assumption | omega
    | body =>
      simp [producer_func, semaphore.post_step] at h
      obtain ⟨rfl, rfl⟩ := h
      simp only [ProdPc.line, ConsPc.line, Nat.reduceEqDiff, reduceIte, List.length_append,
      List.length_singleton] at *
      constructor <;> simp only [stopped, stoppedProd, stoppedCons, prodInSection, consInSection, holdsEmpty, stored,
      holdsFull, loaded, prodAt_append, prodAt_cons, consAt_append, consAt_cons, wrapInt,
        ProdPc.line, ConsPc.line, Nat.reduceEqDiff, reduceIte, List.length_append,
      List.length_singleton] <;>
        first | assumption | omega
    | asleep => simp [producer_func, semaphore.post_step] at h
  | stopDec =>
    simp only [producer_func, semaphore_lockfree.post, wrapInt, Option.some.injEq, Prod.mk.injEq] at h
    obtain ⟨rfl, rfl⟩ := h
    simp only [ProdPc.line, ConsPc.line, Nat.reduceEqDiff, reduceIte, List.length_append,
      List.length_singleton] at *
    constructor <;> simp only [stopped, stoppedProd, stoppedCons, prodInSection, consInSection, holdsEmpty, stored,
      holdsFull, loaded, prodAt_append, prodAt_cons, consAt_append, consAt_cons, wrapInt,
      ProdPc.line, ConsPc.line, Nat.reduceEqDiff, reduceIte, List.length_append,
      List.length_singleton] <;>
      first | assumption | omega
  | write =>
    simp only [producer_func] at h
    split at h
    · simp only [Option.some.injEq, Prod.mk.injEq] at h
      obtain ⟨rfl, rfl⟩ := h
      simp only [ProdPc.line, ConsPc.line, Nat.reduceEqDiff, reduceIte, List.length_append,
      List.length_singleton] at *
      constructor <;> simp only [stopped, stoppedProd, stoppedCons, prodInSection, consInSection, holdsEmpty, stored,
      holdsFull, loaded, prodAt_append, prodAt_cons, consAt_append, consAt_cons, wrapInt,
        ProdPc.line, ConsPc.line, Nat.reduceEqDiff, reduceIte, List.length_append,
      List.length_singleton] <;>
        first | assumption | omega
    · simp at h
  | advance =>
    simp only [producer_func, semaphore_lockfree.post, wrapInt, Option.some.injEq, Prod.mk.injEq] at h
    obtain ⟨rfl, rfl⟩ := h
    simp only [ProdPc.line, ConsPc.line, Nat.reduceEqDiff, reduceIte, List.length_append,
      List.length_singleton] at *
    constructor <;> simp only [stopped, stoppedProd, stoppedCons, prodInSection, consInSection, holdsEmpty, stored,
      holdsFull, loaded, prodAt_append, prodAt_cons, consAt_append, consAt_cons, wrapInt,
      ProdPc.line, ConsPc.line, Nat.reduceEqDiff, reduceIte, List.length_append,
      List.length_singleton] <;>
      first | assumption | omega
  | pdPost =>
    simp only [producer_func, semaphore_lockfree.post, wrapInt, Option.some.injEq, Prod.mk.injEq] at h
    obtain ⟨rfl, rfl⟩ := h
    simp only [ProdPc.line, ConsPc.line, Nat.reduceEqDiff, reduceIte, List.length_append,
      List.length_singleton] at *
    constructor <;> simp only [stopped, stoppedProd, stoppedCons, prodInSection, consInSection, holdsEmpty, stored,
      holdsFull, loaded, prodAt_append, prodAt_cons, consAt_append, consAt_cons, wrapInt,
      ProdPc.line, ConsPc.line, Nat.reduceEqDiff, reduceIte, List.length_append,
      List.length_singleton] <;>
      first | assumption | omega
  | fullPost =>
    simp only [producer_func, semaphore_lockfree.post, wrapInt, Option.some.injEq, Prod.mk.injEq] at h
    obtain ⟨rfl, rfl⟩ := h
    simp only [ProdPc.line, ConsPc.line, Nat.reduceEqDiff, reduceIte, List.length_append,
      List.length_singleton] at *
    constructor <;> simp only [stopped, stoppedProd, stoppedCons, prodInSection, consInSection, holdsEmpty, stored,
      holdsFull, loaded, prodAt_append, prodAt_cons, consAt_append, consAt_cons, wrapInt,
      ProdPc.line, ConsPc.line, Nat.reduceEqDiff, reduceIte, List.length_append,
      List.length_singleton] <;>
      first | assumption | omega

set_option maxHeartbeats 2000000 in
theorem invA_consumer {cfg : Config} (hwf : cfg.wf) {g g1 : Shared} {l1 l2 : List ConsPc}
    {a b : ConsPc} {P : List ProdPc} {m : MainPc}
    (h : consumer_func cfg g a = some (g1, b))
    (hI : InvA cfg ⟨g, P, l1 ++ a :: l2, m⟩) : InvA cfg ⟨g1, P, l1 ++ b :: l2, m⟩ := by
  obtain ⟨h1, h2, h3, h4, h5, h6, h7, h8, h9, h10, h11, h12, h13, h14, h15, h16⟩ := hI
  obtain ⟨w1, w2, w3⟩ := hwf
  simp only [stopped, stoppedProd, stoppedCons, prodInSection, consInSection, holdsEmpty, stored,
      holdsFull, loaded, prodAt_append, prodAt_cons, consAt_append, consAt_cons, wrapInt, INT_MAX] at *
  cases a with
  | unborn => simp [consumer_func] at h
  | exited => simp [consumer_func] at h
  | entry =>
    simp only [consumer_func, semaphore_lockfree.post, wrapInt, Option.some.injEq, Prod.mk.injEq] at h
    obtain ⟨rfl, rfl⟩ := h
    simp only [ProdPc.line, ConsPc.line, Nat.reduceEqDiff, reduceIte, List.length_append,
      List.length_singleton] at *
    constructor <;> simp only [stopped, stoppedProd, stoppedCons, prodInSection, consInSection, holdsEmpty, stored,
      holdsFull, loaded, prodAt_append, prodAt_cons, consAt_append, consAt_cons, wrapInt,
      ProdPc.line, ConsPc.line, Nat.reduceEqDiff, reduceIte, List.length_append,
      List.length_singleton] <;>
      first | assumption | omega
  | fullWait pc =>
    cases pc with
    | load =>
      simp only [consumer_func, semaphore_lockfree.wait_step, Option.some.injEq, Prod.mk.injEq] at h
      obtain ⟨rfl, rfl⟩ := h
      simp only [ProdPc.line, ConsPc.line, Nat.reduceEqDiff, reduceIte, List.length_append,
      List.length_singleton] at *
      constructor <;> simp only [stopped, stoppedProd, stoppedCons, prodInSection, consInSection, holdsEmpty, stored,
      holdsFull, loaded, prodAt_append, prodAt_cons, consAt_append, consAt_cons, wrapInt,
        ProdPc.line, ConsPc.line, Nat.reduceEqDiff, reduceIte, List.length_append,
      List.length_singleton] <;>
        first | assumption | omega
    | test o =>
      by_cases hc : 0 < o ∧ g.full = o
      · simp only [consumer_func, wait_step_test_ret hc.1 hc.2, Option.some.injEq, Prod.mk.injEq] at h
        obtain ⟨rfl, rfl⟩ := h
        simp only [ProdPc.line, ConsPc.line, Nat.reduceEqDiff, reduceIte, List.length_append,
      List.length_singleton] at *
        constructor <;> simp only [stopped, stoppedProd, stoppedCons, prodInSection, consInSection, holdsEmpty, stored,
      holdsFull, loaded, prodAt_append, prodAt_cons, consAt_append, consAt_cons, wrapInt,
          ProdPc.line, ConsPc.line, Nat.reduceEqDiff, reduceIte, List.length_append,
      List.length_singleton] <;>
          first | assumption | omega
      · simp only [consumer_func, wait_step_test_cont hc, Option.some.injEq, Prod.mk.injEq] at h
        obtain ⟨rfl, rfl⟩ := h
        simp only [ProdPc.line, ConsPc.line, Nat.reduceEqDiff, reduceIte, List.length_append,
      List.length_singleton] at *
        constructor <;> simp only [stopped, stoppedProd, stoppedCons, prodInSection, consInSection, holdsEmpty, stored,
      holdsFull, loaded, prodAt_append, prodAt_cons, consAt_append, consAt_cons, wrapInt,
          ProdPc.line, ConsPc.line, Nat.reduceEqDiff, reduceIte, List.length_append,
      List.length_singleton] <;>
          first | assumption | omega
  | csWait pc =>
    cases pc with
    | load =>
      simp only [consumer_func, semaphore_lockfree.wait_step, Option.some.injEq, Prod.mk.injEq] at h
      obtain ⟨rfl, rfl⟩ := h
      simp only [ProdPc.line, ConsPc.line, Nat.reduceEqDiff, reduceIte, List.length_append,
      List.length_singleton] at *
      constructor <;> simp only [stopped, stoppedProd, stoppedCons, prodInSection, consInSection, holdsEmpty, stored,
      holdsFull, loaded, prodAt_append, prodAt_cons, consAt_append, consAt_cons, wrapInt,
        ProdPc.line, ConsPc.line, Nat.reduceEqDiff, reduceIte, List.length_append,
      List.length_singleton] <;>
        first | assumption | omega
    | test o =>
      by_cases hc : 0 < o ∧ g.cs = o
      · simp only [consumer_func, wait_step_test_ret hc.1 hc.2, Option.some.injEq, Prod.mk.injEq] at h
        obtain ⟨rfl, rfl⟩ := h
        simp only [ProdPc.line, ConsPc.line, Nat.reduceEqDiff, reduceIte, List.length_append,
      List.length_singleton] at *
        constructor <;> simp only [stopped, stoppedProd, stoppedCons, prodInSection, consInSection, holdsEmpty, stored,
      holdsFull, loaded, prodAt_append, prodAt_cons, consAt_append, consAt_cons, wrapInt,
          ProdPc.line, ConsPc.line, Nat.reduceEqDiff, reduceIte, List.length_append,
      List.length_singleton] <;>
          first | assumption | omega
      · simp only [consumer_func, wait_step_test_cont hc, Option.some.injEq, Prod.mk.injEq] at h
        obtain ⟨rfl, rfl⟩ := h
        simp only [ProdPc.line, ConsPc.line, Nat.reduceEqDiff, reduceIte, List.length_append,
      List.length_singleton] at *
        constructor <;> simp only [stopped, stoppedProd, stoppedCons, prodInSection, consInSection, holdsEmpty, stored,
      holdsFull, loaded, prodAt_append, prodAt_cons, consAt_append, consAt_cons, wrapInt,
          ProdPc.line, ConsPc.line, Nat.reduceEqDiff, reduceIte, List.length_append,
      List.length_singleton] <;>
          first | assumption | omega
  | check =>
    simp only [consumer_func] at h
    split at h <;> simp only [Option.some.injEq, Prod.mk.injEq] at h
    ·
      obtain ⟨rfl, rfl⟩ := h
      simp only [ProdPc.line, ConsPc.line, Nat.reduceEqDiff, reduceIte, List.length_append,
      List.length_singleton] at *
      constructor <;> simp only [stopped, stoppedProd, stoppedCons, prodInSection, consInSection, holdsEmpty, stored,
      holdsFull, loaded, prodAt_append, prodAt_cons, consAt_append, consAt_cons, wrapInt,
        ProdPc.line, ConsPc.line, Nat.reduceEqDiff, reduceIte, List.length_append,
      List.length_singleton] <;>
        first | assumption | omega
    ·
      obtain ⟨rfl, rfl⟩ := h
      simp only [ProdPc.line, ConsPc.line, Nat.reduceEqDiff, reduceIte, List.length_append,
      List.length_singleton] at *
      constructor <;> simp only [stopped, stoppedProd, stoppedCons, prodInSection, consInSection, holdsEmpty, stored,
      holdsFull, loaded, prodAt_append, prodAt_cons, consAt_append, consAt_cons, wrapInt,
        ProdPc.line, ConsPc.line, Nat.reduceEqDiff, reduceIte, List.length_append,
      List.length_singleton] <;>
        first | assumption | omega
  | stopCsPost =>
    simp only [consumer_func, semaphore_lockfree.post, wrapInt, Option.some.injEq, Prod.mk.injEq] at h
    obtain ⟨rfl, rfl⟩ := h
    simp only [ProdPc.line, ConsPc.line, Nat.reduceEqDiff, reduceIte, List.length_append,
      List.length_singleton] at *
    constructor <;> simp only [stopped, stoppedProd, stoppedCons, prodInSection, consInSection, holdsEmpty, stored,
      holdsFull, loaded, prodAt_append, prodAt_cons, consAt_append, consAt_cons, wrapInt,
      ProdPc.line, ConsPc.line, Nat.reduceEqDiff, reduceIte, List.length_append,
      List.length_singleton] <;>
      first | assumption | omega
  | stopQuitPost pc =>
    cases pc with
    | lock =>
      by_cases hc : g.quit.m_mtx = true <;>
        simp [consumer_func, semaphore.post_step, semaphore.acquire, hc] at h
      obtain ⟨rfl, rfl⟩ := h
      simp only [ProdPc.line, ConsPc.line, Nat.reduceEqDiff, reduceIte, List.length_append,
      List.length_singleton] at *
      constructor <;> simp only [stopped, stoppedProd, stoppedCons, prodInSection, consInSection, holdsEmpty, stored,
      holdsFull, loaded, prodAt_append, prodAt_cons, consAt_append, consAt_cons, wrapInt,
        ProdPc.line, ConsPc.line, Nat.reduceEqDiff, reduceIte, List.length_append,
      List.length_singleton] <;>
        first | assumption | omega
    | body =>
      simp [consumer_func, semaphore.post_step] at h
      obtain ⟨rfl, rfl⟩ := h
      simp only [ProdPc.line, ConsPc.line, Nat.reduceEqDiff, reduceIte, List.length_append,
      List.length_singleton] at *
      constructor <;> simp only [stopped, stoppedProd, stoppedCons, prodInSection, consInSection, holdsEmpty, stored,
      holdsFull, loaded, prodAt_append, prodAt_cons, consAt_append, consAt_cons, wrapInt,
        ProdPc.line, ConsPc.line, Nat.reduceEqDiff, reduceIte, List.length_append,
      List.length_singleton] <;>
        first | assumption | omega
    | asleep => simp [consumer_func, semaphore.post_step] at h
  | stopDec =>
    simp only [consumer_func, semaphore_lockfree.post, wrapInt, Option.some.injEq, Prod.mk.injEq] at h
    obtain ⟨rfl, rfl⟩ := h
    simp only [ProdPc.line, ConsPc.line, Nat.reduceEqDiff, reduceIte, List.length_append,
      List.length_singleton] at *
    constructor <;> simp only [stopped, stoppedProd, stoppedCons, prodInSection, consInSection, holdsEmpty, stored,
      holdsFull, loaded, prodAt_append, prodAt_cons, consAt_append, consAt_cons, wrapInt,
      ProdPc.line, ConsPc.line, Nat.reduceEqDiff, reduceIte, List.length_append,
      List.length_singleton] <;>
      first | assumption | omega
  | read =>
    simp only [consumer_func] at h
    split at h
    · simp at h
    · simp only [Option.some.injEq, Prod.mk.injEq] at h
      obtain ⟨rfl, rfl⟩ := h
      simp only [ProdPc.line, ConsPc.line, Nat.reduceEqDiff, reduceIte, List.length_append,
      List.length_singleton] at *
      constructor <;> simp only [stopped, stoppedProd, stoppedCons, prodInSection, consInSection, holdsEmpty, stored,
      holdsFull, loaded, prodAt_append, prodAt_cons, consAt_append, consAt_cons, wrapInt,
        ProdPc.line, ConsPc.line, Nat.reduceEqDiff, reduceIte, List.length_append,
      List.length_singleton] <;>
        first | assumption | omega
  | advance =>
    simp only [consumer_func, semaphore_lockfree.post, wrapInt, Option.some.injEq, Prod.mk.injEq] at h
    obtain ⟨rfl, rfl⟩ := h
    simp only [ProdPc.line, ConsPc.line, Nat.reduceEqDiff, reduceIte, List.length_append,
      List.length_singleton] at *
    constructor <;> simp only [stopped, stoppedProd, stoppedCons, prodInSection, consInSection, holdsEmpty, stored,
      holdsFull, loaded, prodAt_append, prodAt_cons, consAt_append, consAt_cons, wrapInt,
      ProdPc.line, ConsPc.line, Nat.reduceEqDiff, reduceIte, List.length_append,
      List.length_singleton] <;>
      first | assumption | omega
  | incCount =>
    simp only [consumer_func, semaphore_lockfree.post, wrapInt, Option.some.injEq, Prod.mk.injEq] at h
    obtain ⟨rfl, rfl⟩ := h
    simp only [ProdPc.line, ConsPc.line, Nat.reduceEqDiff, reduceIte, List.length_append,
      List.length_singleton] at *
    constructor <;> simp only [stopped, stoppedProd, stoppedCons, prodInSection, consInSection, holdsEmpty, stored,
      holdsFull, loaded, prodAt_append, prodAt_cons, consAt_append, consAt_cons, wrapInt,
      ProdPc.line, ConsPc.line, Nat.reduceEqDiff, reduceIte, List.length_append,
      List.length_singleton] <;>
      first | assumption | omega
  | csPost =>
    simp only [consumer_func, semaphore_lockfree.post, wrapInt, Option.some.injEq, Prod.mk.injEq] at h
    obtain ⟨rfl, rfl⟩ := h
    simp only [ProdPc.line, ConsPc.line, Nat.reduceEqDiff, reduceIte, List.length_append,
      List.length_singleton] at *
    constructor <;> simp only [stopped, stoppedProd, stoppedCons, prodInSection, consInSection, holdsEmpty, stored,
      holdsFull, loaded, prodAt_append, prodAt_cons, consAt_append, consAt_cons, wrapInt,
      ProdPc.line, ConsPc.line, Nat.reduceEqDiff, reduceIte, List.length_append,
      List.length_singleton] <;>
      first | assumption | omega
  | emptyPost =>
    simp only [consumer_func, semaphore_lockfree.post, wrapInt, Option.some.injEq, Prod.mk.injEq] at h
    obtain ⟨rfl, rfl⟩ := h
    simp only [ProdPc.line, ConsPc.line, Nat.reduceEqDiff, reduceIte, List.length_append,
      List.length_singleton] at *
    constructor <;> simp only [stopped, stoppedProd, stoppedCons, prodInSection, consInSection, holdsEmpty, stored,
      holdsFull, loaded, prodAt_append, prodAt_cons, consAt_append, consAt_cons, wrapInt,
      ProdPc.line, ConsPc.line, Nat.reduceEqDiff, reduceIte, List.length_append,
      List.length_singleton] <;>
      first | assumption | omega

set_option maxHeartbeats 2000000 in
theorem invA_main {cfg : Config} (hwf : cfg.wf) {g : Shared} {P : List ProdPc}
    {C : List ConsPc} {a : MainPc} {s1 : State}
    (h : main_step cfg ⟨g, P, C, a⟩ = some s1)
    (hI : InvA cfg ⟨g, P, C, a⟩) : InvA cfg s1 := by
  obtain ⟨h1, h2, h3, h4, h5, h6, h7, h8, h9, h10, h11, h12, h13, h14, h15, h16⟩ := hI
  obtain ⟨w1, w2, w3⟩ := hwf
  simp only [stopped, stoppedProd, stoppedCons, prodInSection, consInSection, holdsEmpty, stored,
      holdsFull, loaded, prodAt_append, prodAt_cons, consAt_append, consAt_cons, wrapInt, INT_MAX] at *
  cases a with
  | spawnProd i =>
    simp only [main_step] at h
    split at h
    · split at h
      · rename_i hP
        obtain ⟨l1, l2, e1, e2⟩ := set_split _ i _ .entry hP
        simp only [Option.some.injEq] at h
        rw [e2] at h
        subst e1
        subst h
        simp only [stopped, stoppedProd, stoppedCons, prodInSection, consInSection, holdsEmpty, stored,
      holdsFull, loaded, prodAt_append, prodAt_cons, consAt_append, consAt_cons, wrapInt,
          ProdPc.line, ConsPc.line, Nat.reduceEqDiff, reduceIte, List.length_append,
      List.length_singleton, MainPc.pastQuit] at *
        constructor <;> simp only [stopped, stoppedProd, stoppedCons, prodInSection, consInSection, holdsEmpty, stored,
      holdsFull, loaded, prodAt_append, prodAt_cons, consAt_append, consAt_cons, wrapInt,
          ProdPc.line, ConsPc.line, Nat.reduceEqDiff, reduceIte, List.length_append,
      List.length_singleton, MainPc.pastQuit] <;>
          first | assumption | omega
      · simp at h
    · simp only [Option.some.injEq] at h
      subst h
      simp only [stopped, stoppedProd, stoppedCons, prodInSection, consInSection, holdsEmpty, stored,
      holdsFull, loaded, prodAt_append, prodAt_cons, consAt_append, consAt_cons, wrapInt,
        ProdPc.line, ConsPc.line, Nat.reduceEqDiff, reduceIte, List.length_append,
      List.length_singleton, MainPc.pastQuit] at *
      constructor <;> simp only [stopped, stoppedProd, stoppedCons, prodInSection, consInSection, holdsEmpty, stored,
      holdsFull, loaded, prodAt_append, prodAt_cons, consAt_append, consAt_cons, wrapInt,
        ProdPc.line, ConsPc.line, Nat.reduceEqDiff, reduceIte, List.length_append,
      List.length_singleton, MainPc.pastQuit] <;>
        first | assumption | omega
  | spawnCons i =>
    simp only [main_step] at h
    split at h
    · split at h
      · rename_i hP
        obtain ⟨l1, l2, e1, e2⟩ := set_split _ i _ .entry hP
        simp only [Option.some.injEq] at h
        rw [e2] at h
        subst e1
        subst h
        simp only [stopped, stoppedProd, stoppedCons, prodInSection, consInSection, holdsEmpty, stored,
      holdsFull, loaded, prodAt_append, prodAt_cons, consAt_append, consAt_cons, wrapInt,
          ProdPc.line, ConsPc.line, Nat.reduceEqDiff, reduceIte, List.length_append,
      List.length_singleton, MainPc.pastQuit] at *
        constructor <;> simp only [stopped, stoppedProd, stoppedCons, prodInSection, consInSection, holdsEmpty, stored,
      holdsFull, loaded, prodAt_append, prodAt_cons, consAt_append, consAt_cons, wrapInt,
          ProdPc.line, ConsPc.line, Nat.reduceEqDiff, reduceIte, List.length_append,
      List.length_singleton, MainPc.pastQuit] <;>
          first | assumption | omega
      · simp at h
    · simp only [Option.some.injEq] at h
      subst h
      simp only [stopped, stoppedProd, stoppedCons, prodInSection, consInSection, holdsEmpty, stored,
      holdsFull, loaded, prodAt_append, prodAt_cons, consAt_append, consAt_cons, wrapInt,
        ProdPc.line, ConsPc.line, Nat.reduceEqDiff, reduceIte, List.length_append,
      List.length_singleton, MainPc.pastQuit] at *
      constructor <;> simp only [stopped, stoppedProd, stoppedCons, prodInSection, consInSection, holdsEmpty, stored,
      holdsFull, loaded, prodAt_append, prodAt_cons, consAt_append, consAt_cons, wrapInt,
        ProdPc.line, ConsPc.line, Nat.reduceEqDiff, reduceIte, List.length_append,
      List.length_singleton, MainPc.pastQuit] <;>
        first | assumption | omega
  | quitWait pc =>
    cases pc with
    | lock =>
      by_cases hc : g.quit.m_mtx = true <;>
        simp [main_step, semaphore.wait_step, semaphore.acquire, hc] at h
      subst h
      simp only [stopped, stoppedProd, stoppedCons, prodInSection, consInSection, holdsEmpty, stored,
      holdsFull, loaded, prodAt_append, prodAt_cons, consAt_append, consAt_cons, wrapInt,
        ProdPc.line, ConsPc.line, Nat.reduceEqDiff, reduceIte, List.length_append,
      List.length_singleton, MainPc.pastQuit] at *
      constructor <;> simp only [stopped, stoppedProd, stoppedCons, prodInSection, consInSection, holdsEmpty, stored,
      holdsFull, loaded, prodAt_append, prodAt_cons, consAt_append, consAt_cons, wrapInt,
        ProdPc.line, ConsPc.line, Nat.reduceEqDiff, reduceIte, List.length_append,
      List.length_singleton, MainPc.pastQuit] <;>
        first | assumption | omega
    | body =>
      by_cases hc : 0 < g.quit.m_val <;>
        simp [main_step, semaphore.wait_step, hc] at h
      ·
        subst h
        simp only [stopped, stoppedProd, stoppedCons, prodInSection, consInSection, holdsEmpty, stored,
      holdsFull, loaded, prodAt_append, prodAt_cons, consAt_append, consAt_cons, wrapInt,
          ProdPc.line, ConsPc.line, Nat.reduceEqDiff, reduceIte, List.length_append,
      List.length_singleton, MainPc.pastQuit] at *
        constructor <;> simp only [stopped, stoppedProd, stoppedCons, prodInSection, consInSection, holdsEmpty, stored,
      holdsFull, loaded, prodAt_append, prodAt_cons, consAt_append, consAt_cons, wrapInt,
          ProdPc.line, ConsPc.line, Nat.reduceEqDiff, reduceIte, List.length_append,
      List.length_singleton, MainPc.pastQuit] <;>
          first | assumption | omega
      ·
        subst h
        simp only [stopped, stoppedProd, stoppedCons, prodInSection, consInSection, holdsEmpty, stored,
      holdsFull, loaded, prodAt_append, prodAt_cons, consAt_append, consAt_cons, wrapInt,
          ProdPc.line, ConsPc.line, Nat.reduceEqDiff, reduceIte, List.length_append,
      List.length_singleton, MainPc.pastQuit] at *
        constructor <;> simp only [stopped, stoppedProd, stoppedCons, prodInSection, consInSection, holdsEmpty, stored,
      holdsFull, loaded, prodAt_append, prodAt_cons, consAt_append, consAt_cons, wrapInt,
          ProdPc.line, ConsPc.line, Nat.reduceEqDiff, reduceIte, List.length_append,
      List.length_singleton, MainPc.pastQuit] <;>
          first | assumption | omega
    | asleep =>
      simp [main_step, semaphore.wait_step] at h
      subst h
      simp only [stopped, stoppedProd, stoppedCons, prodInSection, consInSection, holdsEmpty, stored,
      holdsFull, loaded, prodAt_append, prodAt_cons, consAt_append, consAt_cons, wrapInt,
        ProdPc.line, ConsPc.line, Nat.reduceEqDiff, reduceIte, List.length_append,
      List.length_singleton, MainPc.pastQuit] at *
      constructor <;> simp only [stopped, stoppedProd, stoppedCons, prodInSection, consInSection, holdsEmpty, stored,
      holdsFull, loaded, prodAt_append, prodAt_cons, consAt_append, consAt_cons, wrapInt,
        ProdPc.line, ConsPc.line, Nat.reduceEqDiff, reduceIte, List.length_append,
      List.length_singleton, MainPc.pastQuit] <;>
        first | assumption | omega
  | loopProd =>
    simp only [main_step] at h
    split at h <;> simp only [Option.some.injEq] at h
    ·
      subst h
      simp only [stopped, stoppedProd, stoppedCons, prodInSection, consInSection, holdsEmpty, stored,
      holdsFull, loaded, prodAt_append, prodAt_cons, consAt_append, consAt_cons, wrapInt,
        ProdPc.line, ConsPc.line, Nat.reduceEqDiff, reduceIte, List.length_append,
      List.length_singleton, MainPc.pastQuit] at *
      constructor <;> simp only [stopped, stoppedProd, stoppedCons, prodInSection, consInSection, holdsEmpty, stored,
      holdsFull, loaded, prodAt_append, prodAt_cons, consAt_append, consAt_cons, wrapInt,
        ProdPc.line, ConsPc.line, Nat.reduceEqDiff, reduceIte, List.length_append,
      List.length_singleton, MainPc.pastQuit] <;>
        first | assumption | omega
    ·
      subst h
      simp only [stopped, stoppedProd, stoppedCons, prodInSection, consInSection, holdsEmpty, stored,
      holdsFull, loaded, prodAt_append, prodAt_cons, consAt_append, consAt_cons, wrapInt,
        ProdPc.line, ConsPc.line, Nat.reduceEqDiff, reduceIte, List.length_append,
      List.length_singleton, MainPc.pastQuit] at *
      constructor <;> simp only [stopped, stoppedProd, stoppedCons, prodInSection, consInSection, holdsEmpty, stored,
      holdsFull, loaded, prodAt_append, prodAt_cons, consAt_append, consAt_cons, wrapInt,
        ProdPc.line, ConsPc.line, Nat.reduceEqDiff, reduceIte, List.length_append,
      List.length_singleton, MainPc.pastQuit] <;>
        first | assumption | omega
  | loopCons =>
    simp only [main_step] at h
    split at h <;> simp only [Option.some.injEq] at h
    ·
      subst h
      simp only [stopped, stoppedProd, stoppedCons, prodInSection, consInSection, holdsEmpty, stored,
      holdsFull, loaded, prodAt_append, prodAt_cons, consAt_append, consAt_cons, wrapInt,
        ProdPc.line, ConsPc.line, Nat.reduceEqDiff, reduceIte, List.length_append,
      List.length_singleton, MainPc.pastQuit] at *
      constructor <;> simp only [stopped, stoppedProd, stoppedCons, prodInSection, consInSection, holdsEmpty, stored,
      holdsFull, loaded, prodAt_append, prodAt_cons, consAt_append, consAt_cons, wrapInt,
        ProdPc.line, ConsPc.line, Nat.reduceEqDiff, reduceIte, List.length_append,
      List.length_singleton, MainPc.pastQuit] <;>
        first | assumption | omega
    ·
      subst h
      simp only [stopped, stoppedProd, stoppedCons, prodInSection, consInSection, holdsEmpty, stored,
      holdsFull, loaded, prodAt_append, prodAt_cons, consAt_append, consAt_cons, wrapInt,
        ProdPc.line, ConsPc.line, Nat.reduceEqDiff, reduceIte, List.length_append,
      List.length_singleton, MainPc.pastQuit] at *
      constructor <;> simp only [stopped, stoppedProd, stoppedCons, prodInSection, consInSection, holdsEmpty, stored,
      holdsFull, loaded, prodAt_append, prodAt_cons, consAt_append, consAt_cons, wrapInt,
        ProdPc.line, ConsPc.line, Nat.reduceEqDiff, reduceIte, List.length_append,
      List.length_singleton, MainPc.pastQuit] <;>
        first | assumption | omega
  | floodFull =>
    simp only [main_step, semaphore_lockfree.post, wrapInt, Option.some.injEq] at h
    subst h
    simp only [stopped, stoppedProd, stoppedCons, prodInSection, consInSection, holdsEmpty, stored,
      holdsFull, loaded, prodAt_append, prodAt_cons, consAt_append, consAt_cons, wrapInt,
      ProdPc.line, ConsPc.line, Nat.reduceEqDiff, reduceIte, List.length_append,
      List.length_singleton, MainPc.pastQuit] at *
    constructor <;> simp only [stopped, stoppedProd, stoppedCons, prodInSection, consInSection, holdsEmpty, stored,
      holdsFull, loaded, prodAt_append, prodAt_cons, consAt_append, consAt_cons, wrapInt,
      ProdPc.line, ConsPc.line, Nat.reduceEqDiff, reduceIte, List.length_append,
      List.length_singleton, MainPc.pastQuit] <;>
      first | assumption | omega
  | floodEmpty =>
    simp only [main_step, semaphore_lockfree.post, wrapInt, Option.some.injEq] at h
    subst h
    simp only [stopped, stoppedProd, stoppedCons, prodInSection, consInSection, holdsEmpty, stored,
      holdsFull, loaded, prodAt_append, prodAt_cons, consAt_append, consAt_cons, wrapInt,
      ProdPc.line, ConsPc.line, Nat.reduceEqDiff, reduceIte, List.length_append,
      List.length_singleton, MainPc.pastQuit] at *
    constructor <;> simp only [stopped, stoppedProd, stoppedCons, prodInSection, consInSection, holdsEmpty, stored,
      holdsFull, loaded, prodAt_append, prodAt_cons, consAt_append, consAt_cons, wrapInt,
      ProdPc.line, ConsPc.line, Nat.reduceEqDiff, reduceIte, List.length_append,
      List.length_singleton, MainPc.pastQuit] <;>
      first | assumption | omega
  | joinProd i =>
    simp only [main_step] at h
    split at h
    · split at h
      · simp only [Option.some.injEq] at h
        subst h
        simp only [stopped, stoppedProd, stoppedCons, prodInSection, consInSection, holdsEmpty, stored,
      holdsFull, loaded, prodAt_append, prodAt_cons, consAt_append, consAt_cons, wrapInt,
          ProdPc.line, ConsPc.line, Nat.reduceEqDiff, reduceIte, List.length_append,
      List.length_singleton, MainPc.pastQuit] at *
        constructor <;> simp only [stopped, stoppedProd, stoppedCons, prodInSection, consInSection, holdsEmpty, stored,
      holdsFull, loaded, prodAt_append, prodAt_cons, consAt_append, consAt_cons, wrapInt,
          ProdPc.line, ConsPc.line, Nat.reduceEqDiff, reduceIte, List.length_append,
      List.length_singleton, MainPc.pastQuit] <;>
          first | assumption | omega
      · simp at h
    · simp only [Option.some.injEq] at h
      subst h
      simp only [stopped, stoppedProd, stoppedCons, prodInSection, consInSection, holdsEmpty, stored,
      holdsFull, loaded, prodAt_append, prodAt_cons, consAt_append, consAt_cons, wrapInt,
        ProdPc.line, ConsPc.line, Nat.reduceEqDiff, reduceIte, List.length_append,
      List.length_singleton, MainPc.pastQuit] at *
      constructor <;> simp only [stopped, stoppedProd, stoppedCons, prodInSection, consInSection, holdsEmpty, stored,
      holdsFull, loaded, prodAt_append, prodAt_cons, consAt_append, consAt_cons, wrapInt,
        ProdPc.line, ConsPc.line, Nat.reduceEqDiff, reduceIte, List.length_append,
      List.length_singleton, MainPc.pastQuit] <;>
        first | assumption | omega
  | joinCons i =>
    simp only [main_step] at h
    split at h
    · split at h
      · simp only [Option.some.injEq] at h
        subst h
        simp only [stopped, stoppedProd, stoppedCons, prodInSection, consInSection, holdsEmpty, stored,
      holdsFull, loaded, prodAt_append, prodAt_cons, consAt_append, consAt_cons, wrapInt,
          ProdPc.line, ConsPc.line, Nat.reduceEqDiff, reduceIte, List.length_append,
      List.length_singleton, MainPc.pastQuit] at *
        constructor <;> simp only [stopped, stoppedProd, stoppedCons, prodInSection, consInSection, holdsEmpty, stored,
      holdsFull, loaded, prodAt_append, prodAt_cons, consAt_append, consAt_cons, wrapInt,
          ProdPc.line, ConsPc.line, Nat.reduceEqDiff, reduceIte, List.length_append,
      List.length_singleton, MainPc.pastQuit] <;>
          first | assumption | omega
      · simp at h
    · simp only [Option.some.injEq] at h
      subst h
      simp only [stopped, stoppedProd, stoppedCons, prodInSection, consInSection, holdsEmpty, stored,
      holdsFull, loaded, prodAt_append, prodAt_cons, consAt_append, consAt_cons, wrapInt,
        ProdPc.line, ConsPc.line, Nat.reduceEqDiff, reduceIte, List.length_append,
      List.length_singleton, MainPc.pastQuit] at *
      constructor <;> simp only [stopped, stoppedProd, stoppedCons, prodInSection, consInSection, holdsEmpty, stored,
      holdsFull, loaded, prodAt_append, prodAt_cons, consAt_append, consAt_cons, wrapInt,
        ProdPc.line, ConsPc.line, Nat.reduceEqDiff, reduceIte, List.length_append,
      List.length_singleton, MainPc.pastQuit] <;>
        first | assumption | omega
  | finished => simp [main_step] at h


/-! ## The invariants hold in every reachable state -/

theorem prodAt_replicate_unborn (k n : Nat) (hk : k ≠ 0) :
    prodAt k (List.replicate n ProdPc.unborn) = 0 := by
  induction n with
  | zero => simp [prodAt]
  | succ n ih =>
    rw [List.replicate_succ, prodAt_cons, ih]
    simp [ProdPc.line]; omega

theorem consAt_replicate_unborn (k n : Nat) (hk : k ≠ 0) :
    consAt k (List.replicate n ConsPc.unborn) = 0 := by
  induction n with
  | zero => simp [consAt]
  | succ n ih =>
    rw [List.replicate_succ, consAt_cons, ih]
    simp [ConsPc.line]; omega

theorem invA_init (cfg : Config) : InvA cfg (init cfg) := by
  constructor <;>
    simp [init, stopped, stoppedProd, stoppedCons, prodInSection, consInSection, holdsEmpty,
      stored, holdsFull, loaded, prodAt_replicate_unborn, consAt_replicate_unborn, wrapInt,
      semaphore_lockfree.mk, semaphore.mk, MainPc.pastQuit]

theorem invA_step {cfg : Config} (hwf : cfg.wf) {s s1 : State} {a : Action}
    (h : step cfg s a = some s1) (hI : InvA cfg s) : InvA cfg s1 := by
  obtain ⟨g, P, C, m⟩ := s
  cases a with
  | producer i rnd =>
    simp only [step] at h
    split at h
    · simp at h
    · rename_i pc hpc
      split at h
      · simp at h
      · rename_i g1 pc1 hstep
        simp only [Option.some.injEq] at h
        obtain ⟨l1, l2, e1, e2⟩ := set_split P i pc pc1 hpc
        subst h
        subst e1
        simp only [e2]
        exact invA_producer hwf hstep hI
  | consumer i =>
    simp only [step] at h
    split at h
    · simp at h
    · rename_i pc hpc
      split at h
      · simp at h
      · rename_i g1 pc1 hstep
        simp only [Option.some.injEq] at h
        obtain ⟨l1, l2, e1, e2⟩ := set_split C i pc pc1 hpc
        subst h
        subst e1
        simp only [e2]
        exact invA_consumer hwf hstep hI
  | main =>
    simp only [step] at h
    exact invA_main hwf h hI

/-- Two indices less than a buffer length apart fall in different slots. -/
theorem mod_ne_of_close {j w n : Nat} (h1 : j < w) (h2 : w < j + n) : j % n ≠ w % n := by
  intro e
  have hd : n ∣ w - j := (Nat.modEq_iff_dvd' (Nat.le_of_lt h1)).mp e
  have : n ≤ w - j := Nat.le_of_dvd (by omega) hd
  omega

theorem prefix_snoc {l w : List Int} {v : Int} (hp : l <+: w) (hv : w[l.length]? = some v) :
    l ++ [v] <+: w := by
  obtain ⟨t, rfl⟩ := hp
  cases t with
  | nil => simp at hv
  | cons x t =>
    rw [List.getElem?_append_right (Nat.le_refl _)] at hv
    simp at hv
    subst hv
    exact ⟨t, by simp⟩

theorem producer_frame {cfg : Config} {g g1 : Shared} {a b : ProdPc} {rnd : Int}
    (h : producer_func cfg g rnd a = some (g1, b)) (hw : a.line ≠ 89) (hv : a.line ≠ 91) :
    g1.buffer = g.buffer ∧ g1.tail = g.tail ∧ g1.start = g.start ∧ g1.written = g.written ∧
      g1.consumed = g.consumed ∧ b.line ≠ 91 := by
  cases a with
  | unborn => simp [producer_func] at h
  | exited => simp [producer_func] at h
  | write => simp [ProdPc.line] at hw
  | advance => simp [ProdPc.line] at hv
  | entry =>
    simp only [producer_func, semaphore_lockfree.post, wrapInt, Option.some.injEq, Prod.mk.injEq] at h
    obtain ⟨rfl, rfl⟩ := h
    simp [ProdPc.line, ConsPc.line]
  | emptyWait pc =>
    cases pc with
    | load =>
      simp only [producer_func, semaphore_lockfree.wait_step, Option.some.injEq, Prod.mk.injEq] at h
      obtain ⟨rfl, rfl⟩ := h
      simp [ProdPc.line, ConsPc.line]
    | test o =>
      by_cases hc : 0 < o ∧ g.empty = o
      · simp only [producer_func, wait_step_test_ret hc.1 hc.2, Option.some.injEq, Prod.mk.injEq] at h
        obtain ⟨rfl, rfl⟩ := h
        simp [ProdPc.line, ConsPc.line]
      · simp only [producer_func, wait_step_test_cont hc, Option.some.injEq, Prod.mk.injEq] at h
        obtain ⟨rfl, rfl⟩ := h
        simp [ProdPc.line, ConsPc.line]
  | pdWait pc =>
    cases pc with
    | load =>
      simp only [producer_func, semaphore_lockfree.wait_step, Option.some.injEq, Prod.mk.injEq] at h
      obtain ⟨rfl, rfl⟩ := h
      simp [ProdPc.line, ConsPc.line]
    | test o =>
      by_cases hc : 0 < o ∧ g.pd = o
      · simp only [producer_func, wait_step_test_ret hc.1 hc.2, Option.some.injEq, Prod.mk.injEq] at h
        obtain ⟨rfl, rfl⟩ := h
        simp [ProdPc.line, ConsPc.line]
      · simp only [producer_func, wait_step_test_cont hc, Option.some.injEq, Prod.mk.injEq] at h
        obtain ⟨rfl, rfl⟩ := h
        simp [ProdPc.line, ConsPc.line]
  | check =>
    simp only [producer_func] at h
    split at h <;> simp only [Option.some.injEq, Prod.mk.injEq] at h
    ·
      obtain ⟨rfl, rfl⟩ := h
      simp [ProdPc.line, ConsPc.line]
    ·
      obtain ⟨rfl, rfl⟩ := h
      simp [ProdPc.line, ConsPc.line]
  | stopPdPost =>
    simp only [producer_func, semaphore_lockfree.post, wrapInt, Option.some.injEq, Prod.mk.injEq] at h
    obtain ⟨rfl, rfl⟩ := h
    simp [ProdPc.line, ConsPc.line]
  | stopQuitPost pc =>
    cases pc with
    | lock =>
      by_cases hc : g.quit.m_mtx = true <;>
        simp [producer_func, semaphore.post_step, semaphore.acquire, hc] at h
      obtain ⟨rfl, rfl⟩ := h
      simp [ProdPc.line, ConsPc.line]
    | body =>
      simp [producer_func, semaphore.post_step] at h
      obtain ⟨rfl, rfl⟩ := h
      simp [ProdPc.line, ConsPc.line]
    | asleep => simp [producer_func, semaphore.post_step] at h
  | stopDec =>
    simp only [producer_func, semaphore_lockfree.post, wrapInt, Option.some.injEq, Prod.mk.injEq] at h
    obtain ⟨rfl, rfl⟩ := h
    simp [ProdPc.line, ConsPc.line]
  | pdPost =>
    simp only [producer_func, semaphore_lockfree.post, wrapInt, Option.some.injEq, Prod.mk.injEq] at h
    obtain ⟨rfl, rfl⟩ := h
    simp [ProdPc.line, ConsPc.line]
  | fullPost =>
    simp only [producer_func, semaphore_lockfree.post, wrapInt, Option.some.injEq, Prod.mk.injEq] at h
    obtain ⟨rfl, rfl⟩ := h
    simp [ProdPc.line, ConsPc.line]

theorem consumer_frame {cfg : Config} {g g1 : Shared} {a b : ConsPc} 
    (h : consumer_func cfg g a = some (g1, b)) (hw : a.line ≠ 138) (hv : a.line ≠ 139) :
    g1.buffer = g.buffer ∧ g1.tail = g.tail ∧ g1.start = g.start ∧ g1.written = g.written ∧
      g1.consumed = g.consumed ∧ b.line ≠ 139 := by
  cases a with
  | unborn => simp [consumer_func] at h
  | exited => simp [consumer_func] at h
  | read => simp [ConsPc.line] at hw
  | advance => simp [ConsPc.line] at hv
  | entry =>
    simp only [consumer_func, semaphore_lockfree.post, wrapInt, Option.some.injEq, Prod.mk.injEq] at h
    obtain ⟨rfl, rfl⟩ := h
    simp [ProdPc.line, ConsPc.line]
  | fullWait pc =>
    cases pc with
    | load =>
      simp only [consumer_func, semaphore_lockfree.wait_step, Option.some.injEq, Prod.mk.injEq] at h
      obtain ⟨rfl, rfl⟩ := h
      simp [ProdPc.line, ConsPc.line]
    | test o =>
      by_cases hc : 0 < o ∧ g.full = o
      · simp only [consumer_func, wait_step_test_ret hc.1 hc.2, Option.some.injEq, Prod.mk.injEq] at h
        obtain ⟨rfl, rfl⟩ := h
        simp [ProdPc.line, ConsPc.line]
      · simp only [consumer_func, wait_step_test_cont hc, Option.some.injEq, Prod.mk.injEq] at h
        obtain ⟨rfl, rfl⟩ := h
        simp [ProdPc.line, ConsPc.line]
  | csWait pc =>
    cases pc with
    | load =>
      simp only [consumer_func, semaphore_lockfree.wait_step, Option.some.injEq, Prod.mk.injEq] at h
      obtain ⟨rfl, rfl⟩ := h
      simp [ProdPc.line, ConsPc.line]
    | test o =>
      by_cases hc : 0 < o ∧ g.cs = o
      · simp only [consumer_func, wait_step_test_ret hc.1 hc.2, Option.some.injEq, Prod.mk.injEq] at h
        obtain ⟨rfl, rfl⟩ := h
        simp [ProdPc.line, ConsPc.line]
      · simp only [consumer_func, wait_step_test_cont hc, Option.some.injEq, Prod.mk.injEq] at h
        obtain ⟨rfl, rfl⟩ := h
        simp [ProdPc.line, ConsPc.line]
  | check =>
    simp only [consumer_func] at h
    split at h <;> simp only [Option.some.injEq, Prod.mk.injEq] at h
    ·
      obtain ⟨rfl, rfl⟩ := h
      simp [ProdPc.line, ConsPc.line]
    ·
      obtain ⟨rfl, rfl⟩ := h
      simp [ProdPc.line, ConsPc.line]
  | stopCsPost =>
    simp only [consumer_func, semaphore_lockfree.post, wrapInt, Option.some.injEq, Prod.mk.injEq] at h
    obtain ⟨rfl, rfl⟩ := h
    simp [ProdPc.line, ConsPc.line]
  | stopQuitPost pc =>
    cases pc with
    | lock =>
      by_cases hc : g.quit.m_mtx = true <;>
        simp [consumer_func, semaphore.post_step, semaphore.acquire, hc] at h
      obtain ⟨rfl, rfl⟩ := h
      simp [ProdPc.line, ConsPc.line]
    | body =>
      simp [consumer_func, semaphore.post_step] at h
      obtain ⟨rfl, rfl⟩ := h
      simp [ProdPc.line, ConsPc.line]
    | asleep => simp [consumer_func, semaphore.post_step] at h
  | stopDec =>
    simp only [consumer_func, semaphore_lockfree.post, wrapInt, Option.some.injEq, Prod.mk.injEq] at h
    obtain ⟨rfl, rfl⟩ := h
    simp [ProdPc.line, ConsPc.line]
  | incCount =>
    simp only [consumer_func, semaphore_lockfree.post, wrapInt, Option.some.injEq, Prod.mk.injEq] at h
    obtain ⟨rfl, rfl⟩ := h
    simp [ProdPc.line, ConsPc.line]
  | csPost =>
    simp only [consumer_func, semaphore_lockfree.post, wrapInt, Option.some.injEq, Prod.mk.injEq] at h
    obtain ⟨rfl, rfl⟩ := h
    simp [ProdPc.line, ConsPc.line]
  | emptyPost =>
    simp only [consumer_func, semaphore_lockfree.post, wrapInt, Option.some.injEq, Prod.mk.injEq] at h
    obtain ⟨rfl, rfl⟩ := h
    simp [ProdPc.line, ConsPc.line]

/-- The data invariant reads only the buffer, the indices, the histories and the number
of threads standing at the two index updates. -/
theorem invD_congr {cfg : Config} {s s1 : State} (hD : InvD cfg s)
    (e1 : s1.g.buffer = s.g.buffer) (e2 : s1.g.tail = s.g.tail) (e3 : s1.g.start = s.g.start)
    (e4 : s1.g.written = s.g.written) (e5 : s1.g.consumed = s.g.consumed)
    (e6 : prodAt 91 s1.producers = prodAt 91 s.producers)
    (e7 : consAt 139 s1.consumers = consAt 139 s.consumers) : InvD cfg s1 := by
  obtain ⟨d1, d2, d3, d4, d5, d6, d7⟩ := hD
  constructor
  · rw [e1]; exact d1
  · rw [e2]; exact d2
  · rw [e2, e4, e6]; exact d3
  · rw [e3]; exact d4
  · rw [e3, e5, e7]; exact d5
  · rw [e1, e4, e5]; exact d6
  · rw [e4, e5]; exact d7

theorem invD_producer {cfg : Config} (hwf : cfg.wf) {g g1 : Shared} {l1 l2 : List ProdPc}
    {a b : ProdPc} {C : List ConsPc} {m : MainPc} {rnd : Int}
    (h : producer_func cfg g rnd a = some (g1, b))
    (hA : InvA cfg ⟨g, l1 ++ a :: l2, C, m⟩)
    (hD : InvD cfg ⟨g, l1 ++ a :: l2, C, m⟩) : InvD cfg ⟨g1, l1 ++ b :: l2, C, m⟩ := by
  by_cases hw : a.line ≠ 89 ∧ a.line ≠ 91
  · obtain ⟨e1, e2, e3, e4, e5, e6⟩ := producer_frame h hw.1 hw.2
    refine invD_congr hD e1 e2 e3 e4 e5 ?_ rfl
    simp only [prodAt_append, prodAt_cons, if_neg hw.2, if_neg e6]
  obtain ⟨d1, d2, d3, d4, d5, d6, d7⟩ := hD
  have hpd := hA.pd_nonneg
  have hmx := hA.pd_mutex
  have hah := hA.ahead_le
  obtain ⟨w1, w2, w3⟩ := hwf
  simp only [prodInSection, prodAt_append, prodAt_cons] at *
  cases a with
  | write =>
    simp only [producer_func] at h
    split at h
    · rename_i hlt
      simp only [Option.some.injEq, Prod.mk.injEq] at h
      obtain ⟨rfl, rfl⟩ := h
      simp only [ProdPc.line, Nat.reduceEqDiff, reduceIte] at *
      have h91a : prodAt 91 l1 = 0 := by omega
      have h91b : prodAt 91 l2 = 0 := by omega
      simp only [h91a, h91b, Nat.add_zero, Nat.mod_eq_of_lt d2] at d3
      constructor
      · simp [d1]
      · exact d2
      · simp only [prodAt_append, prodAt_cons, ProdPc.line, reduceIte, List.length_append,
          List.length_singleton]
        simp only [h91a, h91b, Nat.add_zero, Nat.zero_add]
        rw [d3, Nat.mod_add_mod]
      · exact d4
      · exact d5
      · intro j hj0 hj2
        have hj1 : g.consumed.length ≤ j := hj0
        simp only [List.length_append, List.length_singleton] at hj2
        by_cases hj : j = g.written.length
        · subst hj
          simp [← d3, hlt]
        · have hj3 : j < g.written.length := by omega
          have hne : j % cfg.BUF_LEN ≠ g.tail := by
            rw [d3]; exact mod_ne_of_close hj3 (by omega)
          simp only
          rw [List.getElem?_set_ne (Ne.symm hne), List.getElem?_append_left hj3]
          exact d6 j hj1 hj3
      · exact d7.trans (List.prefix_append _ _)
    · simp at h
  | advance =>
    simp only [producer_func, Option.some.injEq, Prod.mk.injEq] at h
    obtain ⟨rfl, rfl⟩ := h
    simp only [ProdPc.line, Nat.reduceEqDiff, reduceIte] at *
    have h91a : prodAt 91 l1 = 0 := by omega
    have h91b : prodAt 91 l2 = 0 := by omega
    simp only [h91a, h91b, Nat.add_zero, Nat.zero_add] at d3
    constructor
    · exact d1
    · exact Nat.mod_lt _ (by omega)
    · simp only [prodAt_append, prodAt_cons, ProdPc.line, Nat.reduceEqDiff, reduceIte, h91a, h91b,
        Nat.add_zero, Nat.mod_mod]
      exact d3
    · exact d4
    · exact d5
    · exact d6
    · exact d7
  | _ => simp [ProdPc.line] at hw

theorem invD_consumer {cfg : Config} (hwf : cfg.wf) {g g1 : Shared} {l1 l2 : List ConsPc}
    {a b : ConsPc} {P : List ProdPc} {m : MainPc}
    (h : consumer_func cfg g a = some (g1, b))
    (hA : InvA cfg ⟨g, P, l1 ++ a :: l2, m⟩)
    (hD : InvD cfg ⟨g, P, l1 ++ a :: l2, m⟩) : InvD cfg ⟨g1, P, l1 ++ b :: l2, m⟩ := by
  by_cases hw : a.line ≠ 138 ∧ a.line ≠ 139
  · obtain ⟨e1, e2, e3, e4, e5, e6⟩ := consumer_frame h hw.1 hw.2
    refine invD_congr hD e1 e2 e3 e4 e5 rfl ?_
    simp only [consAt_append, consAt_cons, if_neg hw.2, if_neg e6]
  obtain ⟨d1, d2, d3, d4, d5, d6, d7⟩ := hD
  have hcs := hA.cs_nonneg
  have hmx := hA.cs_mutex
  have hbe := hA.behind_le
  obtain ⟨w1, w2, w3⟩ := hwf
  simp only [consInSection, consAt_append, consAt_cons] at *
  cases a with
  | read =>
    simp only [consumer_func] at h
    split at h
    · simp at h
    · rename_i v hv
      simp only [Option.some.injEq, Prod.mk.injEq] at h
      obtain ⟨rfl, rfl⟩ := h
      simp only [ConsPc.line, Nat.reduceEqDiff, reduceIte] at *
      have h9a : consAt 139 l1 = 0 := by omega
      have h9b : consAt 139 l2 = 0 := by omega
      simp only [h9a, h9b, Nat.add_zero, Nat.mod_eq_of_lt d4] at d5
      have hlt : g.consumed.length < g.written.length := by omega
      have hv2 : g.written[g.consumed.length]? = some v := by
        rw [← d6 _ (Nat.le_refl _) hlt, ← d5]; exact hv
      constructor
      · exact d1
      · exact d2
      · exact d3
      · exact d4
      · simp only [consAt_append, consAt_cons, ConsPc.line, reduceIte, List.length_append,
          List.length_singleton, h9a, h9b, Nat.add_zero, Nat.zero_add]
        rw [d5, Nat.mod_add_mod]
      · intro j hj0 hj2
        have hj1 : (g.consumed ++ [v]).length ≤ j := hj0
        simp only [List.length_append, List.length_singleton] at hj1
        exact d6 j (by omega) hj2
      · exact prefix_snoc d7 hv2
  | advance =>
    simp only [consumer_func, Option.some.injEq, Prod.mk.injEq] at h
    obtain ⟨rfl, rfl⟩ := h
    simp only [ConsPc.line, Nat.reduceEqDiff, reduceIte] at *
    have h9a : consAt 139 l1 = 0 := by omega
    have h9b : consAt 139 l2 = 0 := by omega
    simp only [h9a, h9b, Nat.add_zero, Nat.zero_add] at d5
    constructor
    · exact d1
    · exact d2
    · exact d3
    · exact Nat.mod_lt _ (by omega)
    · simp only [consAt_append, consAt_cons, ConsPc.line, Nat.reduceEqDiff, reduceIte, h9a, h9b,
        Nat.add_zero, Nat.mod_mod]
      exact d5
    · exact d6
    · exact d7
  | _ => simp [ConsPc.line] at hw

theorem invD_main {cfg : Config} {s s1 : State} (h : main_step cfg s = some s1)
    (hD : InvD cfg s) : InvD cfg s1 := by
  have key : s1.g.buffer = s.g.buffer ∧ s1.g.tail = s.g.tail ∧ s1.g.start = s.g.start ∧
      s1.g.written = s.g.written ∧ s1.g.consumed = s.g.consumed ∧
      prodAt 91 s1.producers = prodAt 91 s.producers ∧
      consAt 139 s1.consumers = consAt 139 s.consumers := by
    obtain ⟨g, P, C, m⟩ := s
    cases m with
    | spawnProd i =>
      simp only [main_step] at h
      split at h
      · split at h
        · rename_i hP
          obtain ⟨l1, l2, e1, e2⟩ := set_split _ i _ .entry hP
          simp only [Option.some.injEq] at h
          rw [e2] at h
          subst h
          subst e1
          simp [prodAt_append, prodAt_cons, ProdPc.line]
        · simp at h
      · simp only [Option.some.injEq] at h
        subst h
        simp
    | spawnCons i =>
      simp only [main_step] at h
      split at h
      · split at h
        · rename_i hP
          obtain ⟨l1, l2, e1, e2⟩ := set_split _ i _ .entry hP
          simp only [Option.some.injEq] at h
          rw [e2] at h
          subst h
          subst e1
          simp [consAt_append, consAt_cons, ConsPc.line]
        · simp at h
      · simp only [Option.some.injEq] at h
        subst h
        simp
    | quitWait pc =>
      simp only [main_step] at h
      split at h
      · simp at h
      · simp only [Option.some.injEq] at h
        subst h
        simp
      · simp only [Option.some.injEq] at h
        subst h
        simp
    | loopProd =>
      simp only [main_step] at h
      split at h <;> simp only [Option.some.injEq] at h <;> subst h <;> simp
    | loopCons =>
      simp only [main_step] at h
      split at h <;> simp only [Option.some.injEq] at h <;> subst h <;> simp
    | floodFull =>
      simp only [main_step, Option.some.injEq] at h
      subst h
      simp
    | floodEmpty =>
      simp only [main_step, Option.some.injEq] at h
      subst h
      simp
    | joinProd i =>
      simp only [main_step] at h
      split at h
      · split at h
        · simp only [Option.some.injEq] at h
          subst h
          simp
        · simp at h
      · simp only [Option.some.injEq] at h
        subst h
        simp
    | joinCons i =>
      simp only [main_step] at h
      split at h
      · split at h
        · simp only [Option.some.injEq] at h
          subst h
          simp
        · simp at h
      · simp only [Option.some.injEq] at h
        subst h
        simp
    | finished => simp [main_step] at h
  obtain ⟨e1, e2, e3, e4, e5, e6, e7⟩ := key
  exact invD_congr hD e1 e2 e3 e4 e5 e6 e7

theorem invD_init {cfg : Config} (hwf : cfg.wf) : InvD cfg (init cfg) := by
  obtain ⟨w1, w2, w3⟩ := hwf
  constructor <;>
    simp [init, prodAt_replicate_unborn, consAt_replicate_unborn] <;> omega

theorem inv_step {cfg : Config} (hwf : cfg.wf) {s s1 : State} {a : Action}
    (h : step cfg s a = some s1) (hI : InvA cfg s ∧ InvD cfg s) : InvA cfg s1 ∧ InvD cfg s1 := by
  refine ⟨invA_step hwf h hI.1, ?_⟩
  obtain ⟨hA, hD⟩ := hI
  obtain ⟨g, P, C, m⟩ := s
  cases a with
  | producer i rnd =>
    simp only [step] at h
    split at h
    · simp at h
    · rename_i pc hpc
      split at h
      · simp at h
      · rename_i g1 pc1 hstep
        simp only [Option.some.injEq] at h
        obtain ⟨l1, l2, e1, e2⟩ := set_split P i pc pc1 hpc
        subst h
        subst e1
        simp only [e2]
        exact invD_producer hwf hstep hA hD
  | consumer i =>
    simp only [step] at h
    split at h
    · simp at h
    · rename_i pc hpc
      split at h
      · simp at h
      · rename_i g1 pc1 hstep
        simp only [Option.some.injEq] at h
        obtain ⟨l1, l2, e1, e2⟩ := set_split C i pc pc1 hpc
        subst h
        subst e1
        simp only [e2]
        exact invD_consumer hwf hstep hA hD
  | main =>
    simp only [step] at h
    exact invD_main h hD

theorem inv_reachable {cfg : Config} (hwf : cfg.wf) {s : State} (h : Reachable cfg s) :
    InvA cfg s ∧ InvD cfg s := by
  induction h with
  | init => exact ⟨invA_init cfg, invD_init hwf⟩
  | step a _ hs ih => exact inv_step hwf hs ih


/-! ## The member functions, one call at a time -/

theorem lf_trywait_eq (v : Int) :
    semaphore_lockfree.trywait v = some (if 0 < v then (v - 1, true) else (v, false)) := by
  by_cases h : 0 < v
  · have h1 : ¬ v ≤ 0 := by omega
    simp [semaphore_lockfree.trywait, runAlone, semaphore_lockfree.trywait_step,
      semaphore_lockfree.trywait_from, compare_exchange_strong, h, h1]
  · have h1 : v ≤ 0 := by omega
    simp [semaphore_lockfree.trywait, runAlone, semaphore_lockfree.trywait_step,
      semaphore_lockfree.trywait_from, h, h1]

theorem blk_trywait_eq (v : Int) :
    semaphore.trywait ⟨v, false⟩
      = some (if 0 < v then (⟨v - 1, false⟩, true) else (⟨v, false⟩, false)) := by
  by_cases h : 0 < v <;>
    simp [semaphore.trywait, runAlone, semaphore.trywait_step, semaphore.acquire, h]

theorem lf_trywaits_pos (c : Nat) :
    semaphore_lockfree.trywaits (c + 1) (semaphore_lockfree.mk c)
      = some (List.replicate c true ++ [false], 0) := by
  induction c with
  | zero =>
    simp [semaphore_lockfree.trywaits, lf_trywait_eq, semaphore_lockfree.mk]
  | succ n ih =>
    have h : (0 : Int) < ((n + 1 : Nat) : Int) := by omega
    have e : (((n + 1 : Nat) : Int) - 1) = (n : Int) := by omega
    rw [semaphore_lockfree.trywaits]
    simp only [semaphore_lockfree.mk] at ih ⊢
    rw [lf_trywait_eq, if_pos h, e]
    simp only [ih]
    simp [List.replicate_succ]

theorem blk_trywaits_pos (c : Nat) :
    semaphore.trywaits (c + 1) (semaphore.mk c)
      = some (List.replicate c true ++ [false], ⟨0, false⟩) := by
  induction c with
  | zero =>
    simp [semaphore.trywaits, blk_trywait_eq, semaphore.mk]
  | succ n ih =>
    have h : (0 : Int) < ((n + 1 : Nat) : Int) := by omega
    have e : (((n + 1 : Nat) : Int) - 1) = (n : Int) := by omega
    rw [semaphore.trywaits]
    simp only [semaphore.mk] at ih ⊢
    rw [blk_trywait_eq, if_pos h, e]
    simp only [ih]
    simp [List.replicate_succ]

theorem lf_wait_blocked (v : Int) (hv : v ≤ 0) (fuel : Nat) :
    ∀ pc, (pc = LfPc.load ∨ pc = LfPc.test v) →
      runAlone (fun s pc => some (semaphore_lockfree.wait_step s pc)) fuel v pc = none := by
  induction fuel with
  | zero => intro pc _; rfl
  | succ n ih =>
    intro pc hpc
    rcases hpc with rfl | rfl
    · simp only [runAlone, semaphore_lockfree.wait_step]
      exact ih _ (Or.inr rfl)
    · have h : ¬ (0 < v ∧ v = v) := by omega
      simp only [runAlone, wait_step_test_cont h]
      exact ih _ (Or.inl rfl)

theorem blk_wait_blocked (v : Int) (hv : v ≤ 0) (fuel : Nat) :
    ∀ pc, (pc = BlkPc.lock ∨ pc = BlkPc.asleep) →
      runAlone semaphore.wait_step fuel ⟨v, false⟩ pc = none := by
  induction fuel using Nat.strong_induction_on with
  | _ n ih =>
    intro pc hpc
    have hn : ¬ 0 < v := by omega
    rcases hpc with rfl | rfl
    · match n with
      | 0 => rfl
      | 1 => simp [runAlone, semaphore.wait_step, semaphore.acquire]
      | k + 2 =>
        simp only [runAlone, semaphore.wait_step, semaphore.acquire, Bool.false_eq_true,
          if_false, Option.map_some', gt_iff_lt, hn]
        exact ih k (by omega) _ (Or.inr rfl)
    · match n with
      | 0 => rfl
      | k + 1 =>
        simp only [runAlone, semaphore.wait_step]
        exact ih k (by omega) _ (Or.inl rfl)

/-! ## One semaphore and its clients -/

theorem trywait_step_test_ok {m o : Int} (h1 : 0 < o) (h2 : m = o) :
    semaphore_lockfree.trywait_step m (.test o) = (m - 1, .ret true) := by
  have h3 : ¬ o ≤ 0 := by omega
  simp [semaphore_lockfree.trywait_step, semaphore_lockfree.trywait_from,
    compare_exchange_strong, h2, h3]

theorem trywait_step_test_fail {m o : Int} (h : ¬ (0 < o ∧ m = o)) :
    semaphore_lockfree.trywait_step m (.test o) = (m, .ret false) := by
  by_cases h1 : o ≤ 0
  · simp [semaphore_lockfree.trywait_step, semaphore_lockfree.trywait_from, h1]
  · have h2 : ¬ m = o := fun e => h ⟨by omega, e⟩
    simp [semaphore_lockfree.trywait_step, semaphore_lockfree.trywait_from,
      compare_exchange_strong, h1, h2]

theorem lf_balance_step {c0 : Int} {s s1 : LfSys} {i : Nat} {op : Op}
    (hs : s.step i op = some s1)
    (ih : s.m_val = wrapInt (c0 + s.posts - s.waits - s.tryOk) ∧
      0 ≤ c0 + s.posts - s.waits - s.tryOk) :
    s1.m_val = wrapInt (c0 + s1.posts - s1.waits - s1.tryOk) ∧
      0 ≤ c0 + s1.posts - s1.waits - s1.tryOk := by
  obtain ⟨ih1, ih2⟩ := ih
  simp only [wrapInt] at ih1
  simp only [LfSys.step] at hs
  split at hs
  · simp at hs
  · split at hs <;> simp only [Option.some.injEq] at hs <;> subst hs <;>
      simp only [wrapInt, semaphore_lockfree.post] <;> constructor <;> push_cast <;> omega
  · rename_i pc _
    cases pc with
    | load =>
      simp only [semaphore_lockfree.wait_step, Option.some.injEq] at hs
      subst hs
      simp only [wrapInt]
      constructor <;> omega
    | test o =>
      by_cases hc : 0 < o ∧ s.m_val = o
      · simp only [wait_step_test_ret hc.1 hc.2, Option.some.injEq] at hs
        subst hs
        simp only [wrapInt]
        constructor <;> push_cast <;> omega
      · simp only [wait_step_test_cont hc, Option.some.injEq] at hs
        subst hs
        simp only [wrapInt]
        constructor <;> omega
  · rename_i pc _
    cases pc with
    | load =>
      simp only [semaphore_lockfree.trywait_step, Option.some.injEq] at hs
      subst hs
      simp only [wrapInt]
      constructor <;> omega
    | test o =>
      by_cases hc : 0 < o ∧ s.m_val = o
      · simp only [trywait_step_test_ok hc.1 hc.2, Option.some.injEq] at hs
        subst hs
        simp only [wrapInt]
        constructor <;> push_cast <;> omega
      · simp only [trywait_step_test_fail hc, Option.some.injEq] at hs
        subst hs
        simp only [wrapInt]
        constructor <;> omega

/-- The count of a `semaphore_lockfree` is the wrapped balance of the completed calls,
and the balance itself is never negative. -/
theorem lf_balance {c0 : Int} {n : Nat} (h0 : 0 ≤ c0) (h1 : c0 ≤ INT_MAX) {s : LfSys}
    (h : LfSys.Reachable c0 n s) :
    s.m_val = wrapInt (c0 + s.posts - s.waits - s.tryOk) ∧
      0 ≤ c0 + s.posts - s.waits - s.tryOk := by
  simp only [INT_MAX] at h1
  induction h with
  | init =>
    simp only [LfSys.init, semaphore_lockfree.mk, wrapInt]
    constructor <;> push_cast <;> omega
  | step i op _ hs ih => exact lf_balance_step hs ih

theorem blk_owners_cons (a : BlkClient) (l : List BlkClient) :
    BlkSys.owners (a :: l) = BlkSys.owners l +
      (if a = .inWait .body ∨ a = .inPost .body ∨ a = .inTrywait .body then 1 else 0) := by
  simp [BlkSys.owners, List.countP_cons]

theorem blk_owners_append (l1 l2 : List BlkClient) :
    BlkSys.owners (l1 ++ l2) = BlkSys.owners l1 + BlkSys.owners l2 := by
  simp [BlkSys.owners, List.countP_append]

theorem set_split_all {α : Type} (l : List α) (i : Nat) (a : α) (h : l[i]? = some a) :
    ∃ l1 l2, l = l1 ++ a :: l2 ∧ ∀ b, l.set i b = l1 ++ b :: l2 := by
  induction l generalizing i with
  | nil => simp at h
  | cons x xs ih =>
    cases i with
    | zero =>
      simp at h
      exact ⟨[], xs, by simp [h], by simp⟩
    | succ k =>
      simp at h
      obtain ⟨l1, l2, h1, h2⟩ := ih k h
      exact ⟨x :: l1, l2, by simp [h1], by simp [h2]⟩

theorem blk_inv_step {c0 : Int} {s s1 : BlkSys} {i : Nat} {op : Op}
    (hs : s.step i op = some s1) (ih : BlkInv c0 s) : BlkInv c0 s1 := by
  obtain ⟨sem, T, posts, waits, tryOk, tryFail⟩ := s
  obtain ⟨v, mtx⟩ := sem
  obtain ⟨ih1, ih2, ih4⟩ := ih
  simp only [wrapInt] at ih1 ih2 ih4
  simp only [BlkSys.step] at hs
  split at hs
  · simp at hs
  · rename_i hT
    obtain ⟨l1, l2, e1, e2⟩ := set_split_all T i _ hT
    subst e1
    simp only [e2] at hs
    split at hs <;> simp only [Option.some.injEq] at hs <;> subst hs <;> cases mtx <;>
      simp only [BlkInv, wrapInt] <;> refine ⟨by omega, by omega, ?_⟩ <;>
        simp [blk_owners_cons, blk_owners_append] at ih4 ⊢ <;> omega
  · rename_i pc hT
    obtain ⟨l1, l2, e1, e2⟩ := set_split_all T i _ hT
    subst e1
    simp only [e2] at hs
    cases pc with
    | lock =>
      cases mtx <;> simp [semaphore.wait_step, semaphore.acquire] at hs
      subst hs
      simp only [BlkInv, wrapInt] <;> refine ⟨by omega, by omega, ?_⟩ <;>
        simp [blk_owners_cons, blk_owners_append] at ih4 ⊢ <;> omega
    | body =>
      by_cases hc : 0 < v <;> cases mtx <;> simp [semaphore.wait_step, hc] at hs <;>
        subst hs <;>
        simp only [BlkInv, wrapInt] <;> refine ⟨by omega, by omega, ?_⟩ <;>
        simp [blk_owners_cons, blk_owners_append] at ih4 ⊢ <;> omega
    | asleep =>
      simp [semaphore.wait_step] at hs
      subst hs
      cases mtx <;>
        simp only [BlkInv, wrapInt] <;> refine ⟨by omega, by omega, ?_⟩ <;>
        simp [blk_owners_cons, blk_owners_append] at ih4 ⊢ <;> omega
  · rename_i pc hT
    obtain ⟨l1, l2, e1, e2⟩ := set_split_all T i _ hT
    subst e1
    simp only [e2] at hs
    cases pc with
    | lock =>
      cases mtx <;> simp [semaphore.post_step, semaphore.acquire] at hs
      subst hs
      simp only [BlkInv, wrapInt] <;> refine ⟨by omega, by omega, ?_⟩ <;>
        simp [blk_owners_cons, blk_owners_append] at ih4 ⊢ <;> omega
    | body =>
      cases mtx <;> simp [semaphore.post_step] at hs <;>
        subst hs <;>
        simp only [BlkInv, wrapInt] <;> refine ⟨by omega, by omega, ?_⟩ <;>
        simp [blk_owners_cons, blk_owners_append] at ih4 ⊢ <;> omega
    | asleep => simp [semaphore.post_step] at hs
  · rename_i pc hT
    obtain ⟨l1, l2, e1, e2⟩ := set_split_all T i _ hT
    subst e1
    simp only [e2] at hs
    cases pc with
    | lock =>
      cases mtx <;> simp [semaphore.trywait_step, semaphore.acquire] at hs
      subst hs
      simp only [BlkInv, wrapInt] <;> refine ⟨by omega, by omega, ?_⟩ <;>
        simp [blk_owners_cons, blk_owners_append] at ih4 ⊢ <;> omega
    | body =>
      by_cases hc : 0 < v <;> cases mtx <;> simp [semaphore.trywait_step, hc] at hs <;>
        subst hs <;>
        simp only [BlkInv, wrapInt] <;> refine ⟨by omega, by omega, ?_⟩ <;>
        simp [blk_owners_cons, blk_owners_append] at ih4 ⊢ <;> omega
    | asleep => simp [semaphore.trywait_step] at hs

theorem blk_inv {c0 : Int} {n : Nat} (h0 : 0 ≤ c0) (h1 : c0 ≤ INT_MAX) {s : BlkSys}
    (h : BlkSys.Reachable c0 n s) : BlkInv c0 s := by
  simp only [INT_MAX] at h1
  induction h with
  | init =>
    refine ⟨?_, ?_, ?_⟩
    · simp only [BlkSys.init, semaphore.mk, wrapInt]
      push_cast
      omega
    · simp only [BlkSys.init]
      push_cast
      omega
    · simp [BlkSys.init, semaphore.mk, BlkSys.owners]
  | step i op _ hs ih => exact blk_inv_step hs ih

/-! ## Runs are reachable -/

theorem reachable_run {cfg : Config} {s s1 : State} (sched : List Action)
    (h : Reachable cfg s) (hr : run cfg s sched = some s1) : Reachable cfg s1 := by
  induction sched generalizing s with
  | nil =>
    simp only [run, Option.some.injEq] at hr
    exact hr ▸ h
  | cons a rest ih =>
    simp only [run] at hr
    split at hr
    · simp at hr
    · rename_i s2 hs
      exact ih (Reachable.step a h hs) hr

theorem reachable_runD (cfg : Config) (sched : List Action) : Reachable cfg (runD cfg sched) := by
  unfold runD
  cases hr : run cfg (init cfg) sched with
  | none => exact Reachable.init
  | some s => exact reachable_run sched Reachable.init hr

theorem lf_reachable_run {c0 : Int} {n : Nat} {s s1 : LfSys} (sched : List (Nat × Op))
    (h : LfSys.Reachable c0 n s) (hr : LfSys.run s sched = some s1) :
    LfSys.Reachable c0 n s1 := by
  induction sched generalizing s with
  | nil =>
    simp only [LfSys.run, Option.some.injEq] at hr
    exact hr ▸ h
  | cons a rest ih =>
    obtain ⟨i, op⟩ := a
    simp only [LfSys.run] at hr
    split at hr
    · simp at hr
    · rename_i s2 hs
      exact ih (LfSys.Reachable.step i op h hs) hr

theorem blk_reachable_run {c0 : Int} {n : Nat} {s s1 : BlkSys} (sched : List (Nat × Op))
    (h : BlkSys.Reachable c0 n s) (hr : BlkSys.run s sched = some s1) :
    BlkSys.Reachable c0 n s1 := by
  induction sched generalizing s with
  | nil =>
    simp only [BlkSys.run, Option.some.injEq] at hr
    exact hr ▸ h
  | cons a rest ih =>
    obtain ⟨i, op⟩ := a
    simp only [BlkSys.run] at hr
    split at hr
    · simp at hr
    · rename_i s2 hs
      exact ih (BlkSys.Reachable.step i op h hs) hr

theorem srcConfig_wf : srcConfig.wf := by
  refine ⟨?_, ?_, ?_⟩ <;> simp [srcConfig, INT_MAX]

theorem prodAt_eq_zero {n : Nat} {l : List ProdPc} (h : ∀ p ∈ l, p.line ≠ n) : prodAt n l = 0 := by
  simp only [prodAt, List.countP_eq_zero]
  intro p hp
  simpa using h p hp

theorem consAt_eq_zero {n : Nat} {l : List ConsPc} (h : ∀ p ∈ l, p.line ≠ n) : consAt n l = 0 := by
  simp only [consAt, List.countP_eq_zero]
  intro p hp
  simpa using h p hp

/-! ## The claims -/

/-- C1, as stated, fails for `semaphore_lockfree`: constructed with count 5, thread 0 loads
5 inside `trywait`, thread 1 posts, and the compare-and-swap of thread 0 then fails, so
`trywait` returns false although the count was strictly positive throughout, and the
count stays at 6. -/
theorem C1_counterexample :
    LfSys.run (LfSys.init 5 2) raceSchedule = some ⟨6, [.idle, .idle], 1, 0, 0, 1⟩ ∧
    semaphore_lockfree.trywait_step 6 (.test 5) = (6, .ret false) ∧
    ¬ (∀ s s1, LfSys.Reachable 5 2 s → 0 < s.m_val → s.step 0 .trywait = some s1 →
        s1.tryFail = s.tryFail) := by
  have hpre : LfSys.run (LfSys.init 5 2) (raceSchedule.take 3)
      = some ⟨6, [.inTrywait (.test 5), .idle], 1, 0, 0, 0⟩ := by decide
  have hlast : (⟨6, [.inTrywait (.test 5), .idle], 1, 0, 0, 0⟩ : LfSys).step 0 .trywait
      = some ⟨6, [.idle, .idle], 1, 0, 0, 1⟩ := by decide
  refine ⟨by decide, by decide, ?_⟩
  intro h
  have h1 := h _ _ (lf_reachable_run _ LfSys.Reachable.init hpre) (by decide) hlast
  exact absurd h1 (by decide)

/-- C1, amended: for `semaphore`, and for `semaphore_lockfree` when no other thread takes a
step between the load and the compare-and-swap of the call, for every count `v` a call
of `trywait` returns true and leaves the count at `v - 1` when `v` is strictly positive,
and returns false and leaves the count at `v` otherwise; so does the body of
`semaphore::trywait` run under the mutex.  Right after construction with count 0 the
call returns false. -/
theorem C1_trywait (v : Int) :
    semaphore_lockfree.trywait (semaphore_lockfree.mk v)
      = some (if 0 < v then (v - 1, true) else (v, false)) ∧
    semaphore.trywait (semaphore.mk v)
      = some (if 0 < v then (⟨v - 1, false⟩, true) else (⟨v, false⟩, false)) ∧
    semaphore.trywait_step ⟨v, true⟩ .body
      = some (if 0 < v then (⟨v - 1, false⟩, .ret true) else (⟨v, false⟩, .ret false)) ∧
    semaphore_lockfree.trywait (semaphore_lockfree.mk 0) = some (0, false) ∧
    semaphore.trywait (semaphore.mk 0) = some (⟨0, false⟩, false) := by
  refine ⟨lf_trywait_eq v, blk_trywait_eq v, ?_, ?_, ?_⟩
  · by_cases h : 0 < v <;> simp [semaphore.trywait_step, h]
  · simp [semaphore_lockfree.mk, lf_trywait_eq]
  · simp [semaphore.mk, blk_trywait_eq]

/-- C2: in both implementations a step of `wait` on a count `v` returns only when `v` is
strictly positive and then leaves `v - 1`; a step that does not return leaves the count
at `v`; the lock-free compare-and-swap succeeds only from an observed `o > 0` equal to
the count, to `o - 1`.  A call running alone returns `v - 1` when `v > 0` and never
returns when `v <= 0`. -/
theorem C2_wait (v : Int) :
    (∀ pc m r, semaphore_lockfree.wait_step v pc = (m, .ret r) →
      0 < v ∧ m = v - 1 ∧ pc = .test v) ∧
    (∀ pc m pc1, semaphore_lockfree.wait_step v pc = (m, .cont pc1) → m = v) ∧
    (∀ o, o ≤ 0 → semaphore_lockfree.wait_step v (.test o) = (v, .cont .load)) ∧
    (∀ b pc q r, semaphore.wait_step ⟨v, b⟩ pc = some (q, .ret r) →
      0 < v ∧ q.m_val = v - 1 ∧ pc = .body) ∧
    (∀ b pc q pc1, semaphore.wait_step ⟨v, b⟩ pc = some (q, .cont pc1) → q.m_val = v) ∧
    (if 0 < v then
      semaphore_lockfree.wait 2 v = some (v - 1, ()) ∧
        semaphore.wait 2 ⟨v, false⟩ = some (⟨v - 1, false⟩, ())
     else
      ∀ fuel, semaphore_lockfree.wait fuel v = none ∧ semaphore.wait fuel ⟨v, false⟩ = none) := by
  refine ⟨?_, ?_, ?_, ?_, ?_, ?_⟩
  · intro pc m r h
    cases pc with
    | load => simp [semaphore_lockfree.wait_step] at h
    | test o =>
      by_cases hc : 0 < o ∧ v = o
      · rw [wait_step_test_ret hc.1 hc.2] at h
        simp only [Prod.mk.injEq] at h
        obtain ⟨h1, h2⟩ := hc
        subst h2
        exact ⟨h1, h.1.symm, rfl⟩
      · rw [wait_step_test_cont hc] at h
        simp at h
  · intro pc m pc1 h
    cases pc with
    | load =>
      simp only [semaphore_lockfree.wait_step, Prod.mk.injEq] at h
      exact h.1.symm
    | test o =>
      by_cases hc : 0 < o ∧ v = o
      · rw [wait_step_test_ret hc.1 hc.2] at h
        simp at h
      · rw [wait_step_test_cont hc] at h
        simp only [Prod.mk.injEq] at h
        exact h.1.symm
  · intro o ho
    exact wait_step_test_cont (by omega)
  · intro b pc q r h
    cases pc with
    | lock => cases b <;> simp [semaphore.wait_step, semaphore.acquire] at h
    | body =>
      by_cases hc : 0 < v
      · simp [semaphore.wait_step, hc] at h
        exact ⟨hc, by rw [← h], rfl⟩
      · simp [semaphore.wait_step, hc] at h
    | asleep => simp [semaphore.wait_step] at h
  · intro b pc q pc1 h
    cases pc with
    | lock =>
      cases b <;> simp [semaphore.wait_step, semaphore.acquire] at h
      rw [← h.1]
    | body =>
      by_cases hc : 0 < v
      · simp [semaphore.wait_step, hc] at h
      · simp [semaphore.wait_step, hc] at h
        rw [← h.1]
    | asleep =>
      simp [semaphore.wait_step] at h
      rw [← h.1]
  · by_cases hc : 0 < v
    · rw [if_pos hc]
      constructor
      · have e1 : semaphore_lockfree.wait_step v .load = (v, .cont (.test v)) := rfl
        simp only [semaphore_lockfree.wait, runAlone, e1, wait_step_test_ret hc rfl]
      · simp [semaphore.wait, runAlone, semaphore.wait_step, semaphore.acquire, hc]
    · rw [if_neg hc]
      intro fuel
      exact ⟨lf_wait_blocked v (by omega) fuel _ (Or.inl rfl),
        blk_wait_blocked v (by omega) fuel _ (Or.inl rfl)⟩

/-- C3: for both implementations and every count `v` below the largest `int` (positive,
zero or negative), `post` completes and leaves the count at exactly `v + 1`; the body is
defined whatever the sign of `v`. -/
theorem C3_post (v : Int) (hlo : INT_MIN ≤ v) (hhi : v < INT_MAX) :
    semaphore_lockfree.post v = v + 1 ∧
    semaphore.post ⟨v, false⟩ = some (⟨v + 1, false⟩, ()) ∧
    semaphore.post_step ⟨v, true⟩ .body = some (⟨v + 1, false⟩, .ret ()) := by
  simp only [INT_MIN, INT_MAX] at hlo hhi
  have hw : wrapInt (v + 1) = v + 1 := by
    simp only [wrapInt]
    omega
  refine ⟨?_, ?_, ?_⟩
  · simp only [semaphore_lockfree.post, hw]
  · simp [semaphore.post, runAlone, semaphore.post_step, semaphore.acquire, hw]
  · simp [semaphore.post_step, hw]

/-- The statement of `C3_post` at the negative count -3. -/
theorem C3_post_witness :
    semaphore_lockfree.post (-3) = -3 + 1 ∧
    semaphore.post ⟨-3, false⟩ = some (⟨-3 + 1, false⟩, ()) ∧
    semaphore.post_step ⟨-3, true⟩ .body = some (⟨-3 + 1, false⟩, .ret ()) :=
  C3_post (-3) (by decide) (by decide)

/-- C5: for both implementations and every initial count `c >= 0`, `c + 1` calls of
`trywait` in a row after construction with count `c` return true `c` times and then
false, and leave the count at 0. -/
theorem C5_trywaits (c : Nat) :
    semaphore_lockfree.trywaits (c + 1) (semaphore_lockfree.mk c)
      = some (List.replicate c true ++ [false], 0) ∧
    semaphore.trywaits (c + 1) (semaphore.mk c)
      = some (List.replicate c true ++ [false], ⟨0, false⟩) :=
  ⟨lf_trywaits_pos c, blk_trywaits_pos c⟩

/-- C10: `semaphore_lockfree::trywait` is one load and one attempt.  The load writes
nothing.  With `o` the value loaded and `c` the count at the compare-and-swap, the second
step always returns: false with the count still `c` when `o <= 0`; true with the count
`c - 1` when `o > 0` and `c = o`; false with the count still `c` when `o > 0` and
`c != o`. -/
theorem C10_trywait_single_attempt (o c : Int) :
    semaphore_lockfree.trywait_step c .load = (c, .cont (.test c)) ∧
    semaphore_lockfree.trywait_step c (.test o)
      = (if 0 < o ∧ c = o then c - 1 else c, .ret (decide (0 < o ∧ c = o))) ∧
    semaphore_lockfree.trywait_from o c
      = (if o ≤ 0 then (false, c) else if c = o then (true, c - 1) else (false, c)) := by
  refine ⟨rfl, ?_, ?_⟩
  · by_cases hc : 0 < o ∧ c = o
    · rw [trywait_step_test_ok hc.1 hc.2]
      simp [hc]
    · rw [trywait_step_test_fail hc]
      simp [hc]
  · by_cases h1 : o ≤ 0
    · simp [semaphore_lockfree.trywait_from, h1]
    · by_cases h2 : c = o
      · subst h2
        simp [semaphore_lockfree.trywait_from, compare_exchange_strong, h1]
      · simp [semaphore_lockfree.trywait_from, compare_exchange_strong, h1, h2]

/-- C4, as stated, fails: a semaphore constructed with the largest `int` and posted once
(one completed post, no wait) has the smallest `int` as its count, which is negative
and is not `c0 + 1`.  The first conjunct is the step of `semaphore_lockfree`, the second
the three steps of the call on `semaphore`. -/
theorem C4_counterexample :
    (LfSys.init 2147483647 1).step 0 .post = some ⟨-2147483648, [.idle], 1, 0, 0, 0⟩ ∧
    BlkSys.run (BlkSys.init 2147483647 1) [(0, .post), (0, .post), (0, .post)]
      = some ⟨⟨-2147483648, false⟩, [.idle], 1, 0, 0, 0⟩ ∧
    ¬ (∀ s, LfSys.Reachable 2147483647 1 s →
        0 ≤ s.m_val ∧ s.m_val = 2147483647 + s.posts - (s.waits + s.tryOk)) := by
  have hstep : (LfSys.init 2147483647 1).step 0 .post
      = some ⟨-2147483648, [.idle], 1, 0, 0, 0⟩ := by decide
  refine ⟨hstep, by decide, ?_⟩
  intro h
  have h1 := (h _ (LfSys.Reachable.step 0 .post LfSys.Reachable.init hstep)).1
  exact absurd h1 (by decide)

theorem lf_reachable_runD (c0 : Int) (n : Nat) (sched : List (Nat × Op)) :
    LfSys.Reachable c0 n (LfSys.runD c0 n sched) := by
  unfold LfSys.runD
  cases hr : LfSys.run (LfSys.init c0 n) sched with
  | none => exact LfSys.Reachable.init
  | some s => exact lf_reachable_run sched LfSys.Reachable.init hr

theorem blk_reachable_runD (c0 : Int) (n : Nat) (sched : List (Nat × Op)) :
    BlkSys.Reachable c0 n (BlkSys.runD c0 n sched) := by
  unfold BlkSys.runD
  cases hr : BlkSys.run (BlkSys.init c0 n) sched with
  | none => exact BlkSys.Reachable.init
  | some s => exact blk_reachable_run sched BlkSys.Reachable.init hr

/-- C4, amended: for either implementation, every initial count `c0` with
`0 <= c0 <= INT_MAX`, any number `n` of threads and every reachable state (`s` of a
`semaphore_lockfree`, `t` of a `semaphore`), the completed waits and successful trywaits
never exceed `c0` plus the completed posts; and the count is non-negative and equal to
the balance `c0 + posts - (waits + successful trywaits)` whenever that balance is at most
`INT_MAX`. -/
theorem C4_balance (c0 : Int) (n : Nat) (h0 : 0 ≤ c0) (h1 : c0 ≤ INT_MAX)
    (s : LfSys) (t : BlkSys) (hs : LfSys.Reachable c0 n s) (ht : BlkSys.Reachable c0 n t) :
    ((s.waits + s.tryOk : Int) ≤ c0 + s.posts ∧
      (c0 + s.posts - (s.waits + s.tryOk) ≤ INT_MAX →
        0 ≤ s.m_val ∧ s.m_val = c0 + s.posts - (s.waits + s.tryOk))) ∧
    ((t.waits + t.tryOk : Int) ≤ c0 + t.posts ∧
      (c0 + t.posts - (t.waits + t.tryOk) ≤ INT_MAX →
        0 ≤ t.sem.m_val ∧ t.sem.m_val = c0 + t.posts - (t.waits + t.tryOk))) := by
  constructor
  · obtain ⟨e1, e2⟩ := lf_balance h0 h1 hs
    simp only [wrapInt] at e1
    simp only [INT_MAX]
    refine ⟨by omega, fun hle => ⟨by omega, by omega⟩⟩
  · obtain ⟨e1, e2, _⟩ := blk_inv h0 h1 ht
    simp only [wrapInt] at e1
    simp only [INT_MAX]
    refine ⟨by omega, fun hle => ⟨by omega, by omega⟩⟩

/-- The statement of `C4_balance` for three threads, initial count 2, after the run
`clientSchedule` of each implementation. -/
theorem C4_balance_witness :
    (((LfSys.runD 2 3 clientSchedule).waits + (LfSys.runD 2 3 clientSchedule).tryOk : Int)
        ≤ 2 + (LfSys.runD 2 3 clientSchedule).posts ∧
      (2 + (LfSys.runD 2 3 clientSchedule).posts
          - ((LfSys.runD 2 3 clientSchedule).waits + (LfSys.runD 2 3 clientSchedule).tryOk)
          ≤ INT_MAX →
        0 ≤ (LfSys.runD 2 3 clientSchedule).m_val ∧
        (LfSys.runD 2 3 clientSchedule).m_val
          = 2 + (LfSys.runD 2 3 clientSchedule).posts
            - ((LfSys.runD 2 3 clientSchedule).waits + (LfSys.runD 2 3 clientSchedule).tryOk))) ∧
    (((BlkSys.runD 2 3 clientSchedule).waits + (BlkSys.runD 2 3 clientSchedule).tryOk : Int)
        ≤ 2 + (BlkSys.runD 2 3 clientSchedule).posts ∧
      (2 + (BlkSys.runD 2 3 clientSchedule).posts
          - ((BlkSys.runD 2 3 clientSchedule).waits + (BlkSys.runD 2 3 clientSchedule).tryOk)
          ≤ INT_MAX →
        0 ≤ (BlkSys.runD 2 3 clientSchedule).sem.m_val ∧
        (BlkSys.runD 2 3 clientSchedule).sem.m_val
          = 2 + (BlkSys.runD 2 3 clientSchedule).posts
            - ((BlkSys.runD 2 3 clientSchedule).waits
              + (BlkSys.runD 2 3 clientSchedule).tryOk))) :=
  C4_balance 2 3 (by decide) (by decide) _ _ (lf_reachable_runD 2 3 clientSchedule)
    (blk_reachable_runD 2 3 clientSchedule)

/-- C6: in every reachable state of the driver, the flooding of `full` and `empty` by
`main` included, the stores into the buffer completed so far are at least the loads
completed so far and at most `BUF_LEN` more; this also holds counting the producers
that stand at the store and the consumers that stand at the load. -/
theorem C6_occupancy (cfg : Config) (hwf : cfg.wf) (s : State) (h : Reachable cfg s) :
    s.g.consumed.length ≤ s.g.written.length ∧
    s.g.written.length ≤ s.g.consumed.length + cfg.BUF_LEN ∧
    s.g.consumed.length + consAt 138 s.consumers ≤ s.g.written.length ∧
    s.g.written.length + prodAt 89 s.producers ≤ s.g.consumed.length + cfg.BUF_LEN ∧
    (∀ j, s.g.consumed.length ≤ j → j < s.g.written.length →
      s.g.buffer[j % cfg.BUF_LEN]? = s.g.written[j]?) := by
  have hA := (inv_reachable hwf h).1
  have hD := (inv_reachable hwf h).2
  have h1 := hA.behind_le
  have h2 := hA.ahead_le
  refine ⟨by omega, by omega, h1, h2, hD.slots⟩

/-- The statement of `C6_occupancy` at the end of the complete run `fullSchedule`. -/
theorem C6_occupancy_witness :
    (runD srcConfig fullSchedule).g.consumed.length
      ≤ (runD srcConfig fullSchedule).g.written.length ∧
    (runD srcConfig fullSchedule).g.written.length
      ≤ (runD srcConfig fullSchedule).g.consumed.length + srcConfig.BUF_LEN ∧
    (runD srcConfig fullSchedule).g.consumed.length
      + consAt 138 (runD srcConfig fullSchedule).consumers
      ≤ (runD srcConfig fullSchedule).g.written.length ∧
    (runD srcConfig fullSchedule).g.written.length
      + prodAt 89 (runD srcConfig fullSchedule).producers
      ≤ (runD srcConfig fullSchedule).g.consumed.length + srcConfig.BUF_LEN ∧
    (∀ j, (runD srcConfig fullSchedule).g.consumed.length ≤ j →
      j < (runD srcConfig fullSchedule).g.written.length →
      (runD srcConfig fullSchedule).g.buffer[j % srcConfig.BUF_LEN]?
        = (runD srcConfig fullSchedule).g.written[j]?) :=
  C6_occupancy srcConfig srcConfig_wf _ (reachable_runD srcConfig fullSchedule)

/-- C7: in every reachable state of the driver with capacity at least 1 and any number
of producers and consumers, the values loaded by the consumers, in the order of the
loads, are exactly the first values stored by the producers, in the order of the
stores. -/
theorem C7_fifo (cfg : Config) (hwf : cfg.wf) (s : State) (h : Reachable cfg s) :
    s.g.consumed = s.g.written.take s.g.consumed.length := by
  have hD := (inv_reachable hwf h).2
  exact List.prefix_iff_eq_take.mp hD.fifo

/-- The statement of `C7_fifo` at the end of the run `shortSchedule`. -/
theorem C7_fifo_witness :
    (runD srcConfig shortSchedule).g.consumed
      = (runD srcConfig shortSchedule).g.written.take
          (runD srcConfig shortSchedule).g.consumed.length :=
  C7_fifo srcConfig srcConfig_wf _ (reachable_runD srcConfig shortSchedule)

/-- C8: in every reachable state of the driver, the count of `pd` plus the number of
producers between the return of `pd->wait()` and their `pd->post()` is exactly 1, and the
count of `cs` plus the number of consumers between the return of `cs->wait()` and their
`cs->post()` is exactly 1, the exit branch included; so at most one thread of each role
is inside its section. -/
theorem C8_mutex (cfg : Config) (hwf : cfg.wf) (s : State) (h : Reachable cfg s) :
    s.g.pd + prodInSection s.producers = 1 ∧ prodInSection s.producers ≤ 1 ∧
    s.g.cs + consInSection s.consumers = 1 ∧ consInSection s.consumers ≤ 1 := by
  have hA := (inv_reachable hwf h).1
  have h1 := hA.pd_nonneg
  have h2 := hA.pd_mutex
  have h3 := hA.cs_nonneg
  have h4 := hA.cs_mutex
  omega

/-- The statement of `C8_mutex` at the end of the run `shortSchedule`, where producer 1
stands at the store. -/
theorem C8_mutex_witness :
    (runD srcConfig shortSchedule).g.pd + prodInSection (runD srcConfig shortSchedule).producers = 1 ∧
    prodInSection (runD srcConfig shortSchedule).producers ≤ 1 ∧
    (runD srcConfig shortSchedule).g.cs + consInSection (runD srcConfig shortSchedule).consumers = 1 ∧
    consInSection (runD srcConfig shortSchedule).consumers ≤ 1 :=
  C8_mutex srcConfig srcConfig_wf _ (reachable_runD srcConfig shortSchedule)

set_option maxRecDepth 100000 in
/-- C9, as stated, fails: after the complete run `fullSchedule` of the program as the
source configures it, every worker has returned and `main` has returned, and the counts
of `full` and `empty` are 0 and 18, not 16 in total. -/
theorem C9_counterexample :
    (run srcConfig (init srcConfig) fullSchedule).map
        (fun s => (decide (Quiescent s), s.main, s.g.full, s.g.empty))
      = some (true, MainPc.finished, 0, 18) ∧
    ¬ (∀ s, Reachable srcConfig s → Quiescent s → s.g.full + s.g.empty = srcConfig.BUF_LEN) := by
  have hrun : (run srcConfig (init srcConfig) fullSchedule).map
        (fun s => (decide (Quiescent s), s.main, s.g.full, s.g.empty))
      = some (true, MainPc.finished, 0, 18) := by decide
  refine ⟨hrun, ?_⟩
  intro hall
  cases hr : run srcConfig (init srcConfig) fullSchedule with
  | none => simp [hr] at hrun
  | some s =>
    simp only [hr, Option.map_some', Option.some.injEq, Prod.mk.injEq, decide_eq_true_eq] at hrun
    obtain ⟨hq, _, hf, he⟩ := hrun
    have := hall s (reachable_run _ Reachable.init hr) hq
    rw [hf, he] at this
    simp [srcConfig] at this

/-- C9, amended: in every reachable state of the driver in which no worker has yet found
the stop condition true, the counts of `full` and `empty` plus the number of workers
between their wait on one of the two and the matching post on the other add up to
`BUF_LEN`; in particular `full + empty = BUF_LEN` in every such quiescent state. -/
theorem C9_conservation (cfg : Config) (hwf : cfg.wf) (s : State) (h : Reachable cfg s)
    (hs : stopped s = 0) :
    s.g.full + s.g.empty + holdsEmpty s.producers + stored s.producers
        + holdsFull s.consumers + loaded s.consumers = cfg.BUF_LEN ∧
    (Quiescent s → s.g.full + s.g.empty = cfg.BUF_LEN) := by
  have hA := (inv_reachable hwf h).1
  have h1 := hA.empty_eq hs
  have h2 := hA.full_eq hs
  refine ⟨by omega, ?_⟩
  intro hq
  obtain ⟨hp, hc⟩ := hq
  have p69 : prodAt 69 s.producers = 0 := prodAt_eq_zero (fun p hm => by have := hp p hm; omega)
  have p74 : prodAt 74 s.producers = 0 := prodAt_eq_zero (fun p hm => by have := hp p hm; omega)
  have p89 : prodAt 89 s.producers = 0 := prodAt_eq_zero (fun p hm => by have := hp p hm; omega)
  have p91 : prodAt 91 s.producers = 0 := prodAt_eq_zero (fun p hm => by have := hp p hm; omega)
  have p96 : prodAt 96 s.producers = 0 := prodAt_eq_zero (fun p hm => by have := hp p hm; omega)
  have p101 : prodAt 101 s.producers = 0 := prodAt_eq_zero (fun p hm => by have := hp p hm; omega)
  have c122 : consAt 122 s.consumers = 0 := consAt_eq_zero (fun p hm => by have := hc p hm; omega)
  have c124 : consAt 124 s.consumers = 0 := consAt_eq_zero (fun p hm => by have := hc p hm; omega)
  have c138 : consAt 138 s.consumers = 0 := consAt_eq_zero (fun p hm => by have := hc p hm; omega)
  have c139 : consAt 139 s.consumers = 0 := consAt_eq_zero (fun p hm => by have := hc p hm; omega)
  have c144 : consAt 144 s.consumers = 0 := consAt_eq_zero (fun p hm => by have := hc p hm; omega)
  have c149 : consAt 149 s.consumers = 0 := consAt_eq_zero (fun p hm => by have := hc p hm; omega)
  have c154 : consAt 154 s.consumers = 0 := consAt_eq_zero (fun p hm => by have := hc p hm; omega)
  simp only [holdsEmpty, stored, holdsFull, loaded] at h1 h2
  omega

/-- The statement of `C9_conservation` at the end of the run `quietSchedule`, in which no
worker has found the stop condition true. -/
theorem C9_conservation_witness :
    (runD srcConfig quietSchedule).g.full + (runD srcConfig quietSchedule).g.empty
        + holdsEmpty (runD srcConfig quietSchedule).producers
        + stored (runD srcConfig quietSchedule).producers
        + holdsFull (runD srcConfig quietSchedule).consumers
        + loaded (runD srcConfig quietSchedule).consumers = srcConfig.BUF_LEN ∧
    (Quiescent (runD srcConfig quietSchedule) →
      (runD srcConfig quietSchedule).g.full + (runD srcConfig quietSchedule).g.empty
        = srcConfig.BUF_LEN) :=
  C9_conservation srcConfig srcConfig_wf _ (reachable_runD srcConfig quietSchedule) (by decide)

end Sem
